import Mathlib

/-!
# Library management system: embedding of `library.cpp`

Shallow embedding of the C++ program and proofs of its specification claims.

Modelling conventions.

* Heap-allocated `Book` objects live in a `Heap` (a list of records); a `Book*`
  is `none` for `nullptr` and `some a` for the address `a` of a record.
* The singly linked `BookList` is the list of the `book` pointers of its nodes,
  head node first.
* A method that can throw returns its outcome together with the state it leaves
  behind, so that what a failing call did before the `throw` stays visible.
* Dereferencing a pointer that is not the address of a record, and reading or
  writing an array slot outside the allocated block, is `Fault.undefined`.
* The `int` field `capacity` is an integer, and the one computation that can
  leave the range of `int`, `capacity *= 2`, is wrapped to 32 bits (`wrapInt`).
  The `int` field `size` is a natural number: it starts at 0, changes by
  `size++` only, and `size++` is defined only below the length of the block.
* `ArrayList` has a destructor and no copy constructor or copy assignment, so a
  copy shares the `data` block with the original, and the block is deleted with
  whichever of the two is destroyed first.  An object whose block has been
  deleted is an object with no slot left (`ArrayList.released`): every read or
  write through it is outside an allocated block.  This is the state of the two
  users that `main` stores from temporaries; `main` makes no other copy of a
  `User` (its `users` list never reaches its capacity).
-/

namespace Library

/-- What a call can end with other than a normal return: one of the C++
exceptions of the program, or undefined behaviour. -/
inductive Fault where
  | out_of_range (what : String)
  | runtime_error (what : String)
  | bad_array_new_length
  | undefined
  deriving DecidableEq, Repr

/-- Record of `class Book`. -/
structure Book where
  title : String
  author : String
  isbn : String
  isAvailable : Bool
  deriving DecidableEq, Repr

/-- The constructor `Book::Book(t, a, i)`: a new book is available. -/
def Book.new (t a i : String) : Book :=
  { title := t, author := a, isbn := i, isAvailable := true }

/-! ## `template <typename T> class ArrayList` -/

/-- The object state of `ArrayList<T>`: `data` is the allocated block (its
length is the number of slots that `new T[...]` gave it). -/
structure ArrayList (T : Type) where
  data : List T
  size : Nat
  capacity : Int
  deriving DecidableEq, Repr

namespace ArrayList

variable {T : Type}

/-- The expression `new T[n]`: a block of `n` default-initialised slots. -/
def newBlock [Inhabited T] (n : Nat) : List T :=
  List.replicate n default

/-- The constructor `ArrayList(int cap)` for a non-negative `cap`. -/
def alloc [Inhabited T] (cap : Nat) : ArrayList T :=
  { data := newBlock cap, size := 0, capacity := cap }

/-- The constructor `ArrayList(int cap)`: `new T[cap]` throws for a negative
`cap`. -/
def new [Inhabited T] (cap : Int) : Except Fault (ArrayList T) :=
  if cap < 0 then .error .bad_array_new_length else .ok (alloc cap.toNat)

/-- The default argument of the constructor, `cap = 10`. -/
def defaultCapacity : Nat := 10

/-- The value an `int` holds after a computation whose exact result is `n`:
the result modulo `2^32`, in the range from `-2^31` to `2^31 - 1`. -/
def wrapInt (n : Int) : Int :=
  (n + 2147483648) % 4294967296 - 2147483648

/-- The object left behind once the block `data` points to has been deleted
through another object that shared it: the fields are as they were, and no slot
of the block can be read or written any more. -/
def released (l : ArrayList T) : ArrayList T :=
  { l with data := [] }

/-- The loop `for (int i = 0; i < size; i++) newData[i] = data[i];` of `resize`,
with `n` iterations left to run from index `i`. -/
def copyLoop (data : List T) : Nat → Nat → List T → Except Fault (List T)
  | 0, _, newData => .ok newData
  | n + 1, i, newData =>
    match data[i]? with
    | none => .error .undefined
    | some x =>
      if i < newData.length then copyLoop data n (i + 1) (newData.set i x)
      else .error .undefined

/-- The private method `resize()`: `capacity *= 2` on an `int`, then
`new T[capacity]`, which throws when the doubled capacity has wrapped to a
negative number and leaves that number in the field. -/
def resize [Inhabited T] (l : ArrayList T) : Except Fault Unit × ArrayList T :=
  let capacity : Int := wrapInt (l.capacity * 2)
  if capacity < 0 then (.error .bad_array_new_length, { l with capacity := capacity })
  else
    match copyLoop l.data l.size 0 (newBlock capacity.toNat) with
    | .error e => (.error e, { l with capacity := capacity })
    | .ok newData => (.ok (), { data := newData, size := l.size, capacity := capacity })

/-- The statement `data[size++] = item;` of `add`. -/
def store (l : ArrayList T) (item : T) : Except Fault Unit × ArrayList T :=
  if l.size < l.data.length then
    (.ok (), { l with data := l.data.set l.size item, size := l.size + 1 })
  else (.error .undefined, l)

/-- The method `add(const T& item)`: the outcome and the list it leaves. -/
def add [Inhabited T] (l : ArrayList T) (item : T) : Except Fault Unit × ArrayList T :=
  if (l.size : Int) = l.capacity then
    match resize l with
    | (.error e, l1) => (.error e, l1)
    | (.ok (), l1) => store l1 item
  else store l item

/-- The method `operator[](int index)` (both overloads have the same body). -/
def get (l : ArrayList T) (index : Int) : Except Fault T :=
  if index < 0 ∨ index ≥ (l.size : Int) then
    .error (.out_of_range "Index out of bounds")
  else
    match l.data[index.toNat]? with
    | some x => .ok x
    | none => .error .undefined

/-- The method `getSize()`. -/
def getSize (l : ArrayList T) : Int := l.size

/-- A run of `add` calls, one per item, in order; it stops at the first call
that does not return. -/
def addAll [Inhabited T] : ArrayList T → List T → Except Fault (ArrayList T)
  | l, [] => .ok l
  | l, x :: xs =>
    match add l x with
    | (.error e, _) => .error e
    | (.ok (), l1) => addAll l1 xs

/-- Representation invariant of an `ArrayList`: the block has `capacity` slots,
at least one, and the first `size` of them are in use. -/
structure WF (l : ArrayList T) : Prop where
  block : (l.data.length : Int) = l.capacity
  bound : (l.size : Int) ≤ l.capacity
  pos : 0 < l.capacity

/-- The items held, in index order. -/
def toList (l : ArrayList T) : List T := l.data.take l.size

end ArrayList

/-! ## Pointers to books -/

/-- A value of type `Book*`: `none` is `nullptr`, `some a` the address `a`. -/
abbrev BookPtr := Option Nat

/-- The free store of `Book` objects; the address of a book is its position. -/
abbrev Heap := List Book

/-- The book a pointer refers to, if it refers to one. -/
def Heap.read (h : Heap) (b : BookPtr) : Option Book :=
  match b with
  | none => none
  | some a => h[a]?

/-- The expression `new Book(t, a, i)`: the store with the new object, and the
pointer to it. -/
def Heap.newBook (h : Heap) (t a i : String) : Heap × BookPtr :=
  (h ++ [Book.new t a i], some h.length)

/-! ## `class User` -/

/-- Object state of `class User` (with the `name` of its base `Person`). -/
structure User where
  name : String
  userID : String
  borrowedBooks : ArrayList BookPtr
  deriving DecidableEq, Repr

namespace User

/-- The constructor `User(string n, string id)`. -/
def new (n id : String) : User :=
  { name := n, userID := id, borrowedBooks := ArrayList.alloc ArrayList.defaultCapacity }

instance : Inhabited User := ⟨User.new "" ""⟩

/-- The copy of a temporary `User` that is left in a container once the
temporary is destroyed: the implicit copy assignment copied `name`, `userID`
and the fields of `borrowedBooks`, `data` pointer included, and the destructor
of the temporary has deleted the block. -/
def storedFromTemporary (u : User) : User :=
  { u with borrowedBooks := u.borrowedBooks.released }

/-- The method `borrowBook(Book* b)`, run on the store `h`. -/
def borrowBook (h : Heap) (u : User) (b : BookPtr) : Except Fault Unit × Heap × User :=
  match b with
  | none => (.error .undefined, h, u)
  | some a =>
    match h[a]? with
    | none => (.error .undefined, h, u)
    | some bk =>
      if bk.isAvailable = false then
        (.error (.runtime_error "Book not available."), h, u)
      else
        let h1 := h.set a { bk with isAvailable := false }
        let r := u.borrowedBooks.add b
        (r.1, h1, { u with borrowedBooks := r.2 })

/-- The loop of `returnBook` with `n` iterations left from index `i`, followed
by the `throw` that is reached when the loop runs out. -/
def returnLoop (h : Heap) (l : ArrayList BookPtr) (isbn : String) :
    Nat → Nat → Except Fault Unit × Heap
  | 0, _ => (.error (.runtime_error "You did not borrow this book."), h)
  | n + 1, i =>
    match l.get (i : Int) with
    | .error e => (.error e, h)
    | .ok b =>
      match b with
      | none => (.error .undefined, h)
      | some a =>
        match h[a]? with
        | none => (.error .undefined, h)
        | some bk =>
          if bk.isbn = isbn then (.ok (), h.set a { bk with isAvailable := true })
          else returnLoop h l isbn n (i + 1)

/-- The method `returnBook(const string& isbn)`, run on the store `h`. -/
def returnBook (h : Heap) (u : User) (isbn : String) : Except Fault Unit × Heap × User :=
  let r := returnLoop h u.borrowedBooks isbn u.borrowedBooks.size 0
  (r.1, r.2, u)

/-- The method `getUserID()`. -/
def getUserID (u : User) : String := u.userID

end User

/-! ## `class BookList` -/

/-- The linked list of `BookNode`s: the `book` pointer of each node, from
`head` on. -/
structure BookList where
  head : List BookPtr
  deriving DecidableEq, Repr

namespace BookList

/-- The constructor `BookList()`. -/
def new : BookList := { head := [] }

/-- The method `addBook(Book* b)`: a new node in front of `head`. -/
def addBook (l : BookList) (b : BookPtr) : BookList :=
  { head := b :: l.head }

/-- The `while (current)` loop of `findBookByISBN` from the node `current`. -/
def findISBNFrom (h : Heap) (isbn : String) : List BookPtr → Except Fault BookPtr
  | [] => .ok none
  | b :: next =>
    match h.read b with
    | none => .error .undefined
    | some bk => if bk.isbn = isbn then .ok b else findISBNFrom h isbn next

/-- The method `findBookByISBN(const string& isbn)`. -/
def findBookByISBN (h : Heap) (l : BookList) (isbn : String) : Except Fault BookPtr :=
  findISBNFrom h isbn l.head

/-- The `while (current)` loop of `findBookByTitle` from the node `current`. -/
def findTitleFrom (h : Heap) (title : String) : List BookPtr → Except Fault BookPtr
  | [] => .ok none
  | b :: next =>
    match h.read b with
    | none => .error .undefined
    | some bk => if bk.title = title then .ok b else findTitleFrom h title next

/-- The method `findBookByTitle(const string& title)`. -/
def findBookByTitle (h : Heap) (l : BookList) (title : String) : Except Fault BookPtr :=
  findTitleFrom h title l.head

/-- The method `updateBook(isbn, newTitle, newAuthor)`, run on the store `h`. -/
def updateBook (h : Heap) (l : BookList) (isbn newTitle newAuthor : String) :
    Except Fault Unit × Heap :=
  match l.findBookByISBN h isbn with
  | .error e => (.error e, h)
  | .ok none => (.error (.runtime_error "Book not found."), h)
  | .ok (some a) =>
    match h[a]? with
    | none => (.error .undefined, h)
    | some bk => (.ok (), h.set a { bk with title := newTitle, author := newAuthor })

end BookList

/-! ## `main`: the state of the program and the branches of its menu -/

/-- The variables of `main` together with the free store. -/
structure State where
  heap : Heap
  library : BookList
  users : ArrayList User
  deriving DecidableEq, Repr

/-- One menu selection with the lines read for it. -/
inductive Command where
  | addBook (title author isbn : String)
  | search (query : String)
  | updateBook (isbn newTitle newAuthor : String)
  | borrowBook (uid isbn : String)
  | returnBook (uid isbn : String)
  deriving DecidableEq, Repr

namespace State

/-- The declarations at the top of `main` and the two statements
`users.add(User(..))`: each stores the copy of a temporary, whose block is
deleted with the temporary at the end of the statement. -/
def boot : Except Fault State :=
  match (ArrayList.alloc ArrayList.defaultCapacity).add
      (User.new "Mandeep" "1001").storedFromTemporary with
  | (.error e, _) => .error e
  | (.ok (), us1) =>
    match us1.add (User.new "Cameron" "1002").storedFromTemporary with
    | (.error e, _) => .error e
    | (.ok (), us2) => .ok { heap := [], library := BookList.new, users := us2 }

/-- The state `boot` ends in (see `boot_eq_start`): no book, an empty catalog,
and the two users in the first two of the ten slots of `users`, each with a
borrowed list of size 0 and capacity 10 whose block has been deleted. -/
def start : State :=
  { heap := []
    library := BookList.new
    users :=
      { data :=
          { name := "Mandeep", userID := "1001",
            borrowedBooks := { data := [], size := 0, capacity := 10 } } ::
          { name := "Cameron", userID := "1002",
            borrowedBooks := { data := [], size := 0, capacity := 10 } } ::
          List.replicate 8 default
        size := 2
        capacity := 10 } }

/-- The loop over `users` in the borrow and return branches, with `n` iterations
left from index `i`: the index of the user `currentUser` points to, or `none`
for a `currentUser` left at `nullptr`. -/
def findUserLoop (users : ArrayList User) (uid : String) :
    Nat → Nat → Except Fault (Option Nat)
  | 0, _ => .ok none
  | n + 1, i =>
    match users.get (i : Int) with
    | .error e => .error e
    | .ok u => if u.getUserID = uid then .ok (some i) else findUserLoop users uid n (i + 1)

/-- The lookup of `currentUser` by id. -/
def findUser (users : ArrayList User) (uid : String) : Except Fault (Option Nat) :=
  findUserLoop users uid users.size 0

/-- Branch `choice == 1`: add a new book. -/
def addBranch (s : State) (title author isbn : String) : Except Fault Unit × State :=
  let r := s.heap.newBook title author isbn
  (.ok (), { s with heap := r.1, library := s.library.addBook r.2 })

/-- Branch `choice == 2`: the pointer `b` that is printed, or `nullptr` when
"Book not found." is printed. -/
def searchBranch (s : State) (query : String) : Except Fault BookPtr :=
  match s.library.findBookByISBN s.heap query with
  | .error e => .error e
  | .ok (some a) => .ok (some a)
  | .ok none => s.library.findBookByTitle s.heap query

/-- Branch `choice == 3`: update a book. -/
def updateBranch (s : State) (isbn newTitle newAuthor : String) : Except Fault Unit × State :=
  let r := s.library.updateBook s.heap isbn newTitle newAuthor
  (r.1, { s with heap := r.2 })

/-- A method call `currentUser->m(...)` on the user at index `i` of `users`:
the user object is updated in place. -/
def onUser (s : State) (i : Nat) (m : Heap → User → Except Fault Unit × Heap × User) :
    Except Fault Unit × State :=
  match s.users.data[i]? with
  | none => (.error .undefined, s)
  | some u =>
    let r := m s.heap u
    (r.1, { s with heap := r.2.1, users := { s.users with data := s.users.data.set i r.2.2 } })

/-- Branch `choice == 4`: borrow a book. -/
def borrowBranch (s : State) (uid isbn : String) : Except Fault Unit × State :=
  match findUser s.users uid with
  | .error e => (.error e, s)
  | .ok none => (.error (.runtime_error "User not found."), s)
  | .ok (some i) =>
    match s.library.findBookByISBN s.heap isbn with
    | .error e => (.error e, s)
    | .ok none => (.error (.runtime_error "Book not found."), s)
    | .ok (some a) => s.onUser i (fun h u => u.borrowBook h (some a))

/-- Branch `choice == 5`: return a book. -/
def returnBranch (s : State) (uid isbn : String) : Except Fault Unit × State :=
  match findUser s.users uid with
  | .error e => (.error e, s)
  | .ok none => (.error (.runtime_error "User not found."), s)
  | .ok (some i) => s.onUser i (fun h u => u.returnBook h isbn)

/-- One pass through the body of the menu loop: the outcome of the selected
branch (an exception is caught and reported by `main`) and the state after. -/
def step (s : State) : Command → Except Fault Unit × State
  | .addBook t a i => s.addBranch t a i
  | .search q =>
    match s.searchBranch q with
    | .error e => (.error e, s)
    | .ok _ => (.ok (), s)
  | .updateBook i t a => s.updateBranch i t a
  | .borrowBook u i => s.borrowBranch u i
  | .returnBook u i => s.returnBranch u i

/-- The state after a sequence of menu selections. -/
def run (s : State) : List Command → State
  | [] => s
  | c :: cs => run (s.step c).2 cs

/-- The outcomes of a sequence of menu selections, in order. -/
def outcomes (s : State) : List Command → List (Except Fault Unit)
  | [] => []
  | c :: cs => (s.step c).1 :: outcomes (s.step c).2 cs

end State

/-! ## Predicates used to state the properties -/

/-- Every node of the catalog points to a book of the store. -/
def BookList.Valid (h : Heap) (l : BookList) : Prop :=
  ∀ p ∈ l.head, (h.read p).isSome = true

instance (h : Heap) (l : BookList) : Decidable (l.Valid h) := by
  unfold BookList.Valid; infer_instance

/-- The catalog has a node whose book has the given ISBN. -/
def BookList.HasISBN (h : Heap) (l : BookList) (isbn : String) : Prop :=
  ∃ p ∈ l.head, (h.read p).map Book.isbn = some isbn

instance (h : Heap) (l : BookList) (isbn : String) : Decidable (l.HasISBN h isbn) := by
  unfold BookList.HasISBN; infer_instance

/-- The patron at index `i` of `users` has the book at address `a` in the
borrowed list. -/
def State.Lists (s : State) (i a : Nat) : Prop :=
  ∃ u, s.users.toList[i]? = some u ∧ some a ∈ u.borrowedBooks.toList

/-- The states `main` can be in at the top of its menu loop: the state after
start-up, and the state after an add, update, borrow or return branch run from
such a state. -/
inductive State.Reachable : State → Prop where
  | boot (s : State) : State.boot = .ok s → State.Reachable s
  | addBook (s : State) (t a i : String) :
      State.Reachable s → State.Reachable (s.addBranch t a i).2
  | updateBook (s : State) (i t a : String) :
      State.Reachable s → State.Reachable (s.updateBranch i t a).2
  | borrowBook (s : State) (u i : String) :
      State.Reachable s → State.Reachable (s.borrowBranch u i).2
  | returnBook (s : State) (u i : String) :
      State.Reachable s → State.Reachable (s.returnBranch u i).2

/-- The catalog has a node whose book has the given title. -/
def BookList.HasTitle (h : Heap) (l : BookList) (title : String) : Prop :=
  ∃ p ∈ l.head, (h.read p).map Book.title = some title

instance (h : Heap) (l : BookList) (title : String) : Decidable (l.HasTitle h title) := by
  unfold BookList.HasTitle; infer_instance

/-- The book at address `a` is the first in the order of the nodes `ps` whose
field `key` is `q`: it is at some position `k`, and no node before position `k`
has a book with that value. -/
def BookList.IsFirstWith (h : Heap) (key : Book → String) (q : String) (ps : List BookPtr)
    (a : Nat) : Prop :=
  ∃ k : Nat, ps[k]? = some (some a) ∧ (h[a]?).map key = some q ∧
    ∀ j : Nat, j < k → ∀ p : BookPtr, ps[j]? = some p → (h.read p).map key ≠ some q

/-- The shape the two lookup loops share: a scan for the first node whose book
has `key = q`. -/
def BookList.findFrom (key : Book → String) (h : Heap) (q : String) :
    List BookPtr → Except Fault BookPtr
  | [] => .ok none
  | b :: next =>
    match h.read b with
    | none => .error .undefined
    | some bk => if key bk = q then .ok b else findFrom key h q next

/-- A run of `addBook` calls, one per pointer, in order. -/
def BookList.addBooks : BookList → List BookPtr → BookList
  | l, [] => l
  | l, b :: bs => addBooks (l.addBook b) bs

end Library

/-! ## Equality of outcomes is decidable -/

deriving instance DecidableEq for Except

/-! # Theorems -/

namespace Library

/-! ## Lemmas on `ArrayList` -/

namespace ArrayList

variable {T : Type}

theorem copyLoop_spec (data : List T) :
    ∀ (n i : Nat) (nd : List T), i + n ≤ data.length → i + n ≤ nd.length →
      ∃ r, copyLoop data n i nd = .ok r ∧ r.length = nd.length ∧
        ∀ j, r[j]? = if i ≤ j ∧ j < i + n then data[j]? else nd[j]? := by
  intro n
  induction n with
  | zero =>
    intro i nd _ _
    refine ⟨nd, rfl, rfl, fun j => ?_⟩
    have hno : ¬ (i ≤ j ∧ j < i) := by omega
    simp [hno]
  | succ n ih =>
    intro i nd h1 h2
    have hi : i < data.length := by omega
    have hi2 : i < nd.length := by omega
    obtain ⟨r, hr, hlen, hget⟩ := ih (i + 1) (nd.set i data[i]) (by omega) (by simp; omega)
    refine ⟨r, ?_, by simpa using hlen, fun j => ?_⟩
    · simp only [copyLoop, List.getElem?_eq_getElem hi, hi2, if_true]
      exact hr
    · rw [hget j]
      by_cases hj : i = j
      · subst hj
        have a1 : ¬ (i + 1 ≤ i ∧ i < i + 1 + n) := by omega
        have a2 : (i ≤ i ∧ i < i + (n + 1)) := by omega
        simp [a1, a2, hi, hi2]
      · by_cases hc : i + 1 ≤ j ∧ j < i + 1 + n
        · have a2 : (i ≤ j ∧ j < i + (n + 1)) := by omega
          simp [hc, a2]
        · have a2 : ¬ (i ≤ j ∧ j < i + (n + 1)) := by omega
          simp [hc, a2, List.getElem?_set, hj]

/-- On a well-formed list whose doubled capacity is within the range of `int`,
`resize` returns: the capacity doubles, the size and the items held stay. -/
theorem resize_spec [Inhabited T] (l : ArrayList T) (hwf : l.WF)
    (hmax : l.capacity * 2 ≤ 2147483647) :
    ∃ l1, l.resize = (.ok (), l1) ∧ (l1.data.length : Int) = l.capacity * 2 ∧
      l1.size = l.size ∧ l1.capacity = l.capacity * 2 ∧ l1.toList = l.toList := by
  obtain ⟨hb, hs, hp⟩ := hwf
  have hw : wrapInt (l.capacity * 2) = l.capacity * 2 := by
    unfold wrapInt
    omega
  have hnn : ¬ (l.capacity * 2 < 0) := by omega
  obtain ⟨r, hr, hlen, hget⟩ :=
    copyLoop_spec l.data l.size 0 (newBlock (l.capacity * 2).toNat)
      (by omega) (by simp [newBlock]; omega)
  refine ⟨{ data := r, size := l.size, capacity := l.capacity * 2 }, ?_, ?_, rfl, rfl, ?_⟩
  · simp only [resize, hw, hnn, if_false, hr]
  · rw [hlen]
    simp [newBlock]
    omega
  · apply List.ext_getElem?
    intro j
    simp only [toList, List.getElem?_take]
    by_cases hj : j < l.size
    · have hc : 0 ≤ j ∧ j < 0 + l.size := by omega
      simp [hj, hget j, hc]
    · simp [hj]

/-- When the doubled capacity is beyond the range of `int`, `resize` throws and
leaves the wrapped, negative capacity in the field. -/
theorem resize_overflow [Inhabited T] (l : ArrayList T)
    (h1 : 2147483647 < l.capacity * 2) (h2 : l.capacity * 2 < 4294967296) :
    l.resize =
      (.error .bad_array_new_length, { l with capacity := l.capacity * 2 - 4294967296 }) := by
  have hw : wrapInt (l.capacity * 2) = l.capacity * 2 - 4294967296 := by
    unfold wrapInt
    omega
  have hneg : l.capacity * 2 - 4294967296 < 0 := by omega
  simp only [resize, hw, hneg, if_true]

/-- The statement `data[size++] = item` on a list with a free slot. -/
theorem store_spec (l : ArrayList T) (x : T) (h : l.size < l.data.length) :
    ∃ l1, l.store x = (.ok (), l1) ∧ l1.data.length = l.data.length ∧ l1.size = l.size + 1 ∧
      l1.capacity = l.capacity ∧ l1.toList = l.toList ++ [x] := by
  refine ⟨{ l with data := l.data.set l.size x, size := l.size + 1 }, ?_, by simp, rfl, rfl, ?_⟩
  · simp [store, h]
  · apply List.ext_getElem?
    intro j
    simp only [toList, List.getElem?_take, List.getElem?_append, List.length_take,
      Nat.min_eq_left (Nat.le_of_lt h)]
    by_cases h1 : j < l.size
    · have h2 : j < l.size + 1 := by omega
      have h3 : l.size ≠ j := by omega
      simp [h1, h2, List.getElem?_set, h3]
    · by_cases h2 : j = l.size
      · subst h2
        simp [h]
      · have h3 : ¬ j < l.size + 1 := by omega
        simp [h1, h3]
        omega

/-- On a well-formed list that has a free slot, or whose doubled capacity is
within the range of `int`, `add` returns a well-formed list with the item
appended; the capacity doubles exactly when the list was full. -/
theorem add_spec [Inhabited T] (l : ArrayList T) (x : T) (hwf : l.WF)
    (hroom : (l.size : Int) = l.capacity → l.capacity * 2 ≤ 2147483647) :
    ∃ l1, l.add x = (.ok (), l1) ∧ l1.WF ∧ l1.size = l.size + 1 ∧
      l1.toList = l.toList ++ [x] ∧
      l1.capacity = (if (l.size : Int) = l.capacity then l.capacity * 2 else l.capacity) := by
  have hwf0 := hwf
  obtain ⟨hb, hs, hp⟩ := hwf
  by_cases hfull : (l.size : Int) = l.capacity
  · obtain ⟨l1, h1, hlen1, hsz1, hcap1, hl1⟩ := resize_spec l hwf0 (hroom hfull)
    obtain ⟨l2, h2, hlen2, hsz2, hcap2, hl2⟩ := store_spec l1 x (by omega)
    refine ⟨l2, ?_, ⟨by omega, by omega, by omega⟩, by omega, ?_, ?_⟩
    · simp [add, hfull, h1, h2]
    · rw [hl2, hl1]
    · simp [hfull, hcap2, hcap1]
  · obtain ⟨l2, h2, hlen2, hsz2, hcap2, hl2⟩ := store_spec l x (by omega)
    refine ⟨l2, ?_, ⟨by omega, by omega, by omega⟩, by omega, hl2, ?_⟩
    · simp [add, hfull, h2]
    · simp [hfull, hcap2]

/-- On a full list whose doubled capacity is beyond the range of `int`, `add`
throws from `resize`. -/
theorem add_overflow [Inhabited T] (l : ArrayList T) (x : T)
    (hfull : (l.size : Int) = l.capacity)
    (h1 : 2147483647 < l.capacity * 2) (h2 : l.capacity * 2 < 4294967296) :
    l.add x =
      (.error .bad_array_new_length, { l with capacity := l.capacity * 2 - 4294967296 }) := by
  simp [add, hfull, resize_overflow l h1 h2]

/-- A capacity `c * 2^k` below a capacity `c * 2^K` doubles to at most that. -/
theorem double_le_of_lt (c k K : Nat) (h : c * 2 ^ k < c * 2 ^ K) :
    c * 2 ^ k * 2 ≤ c * 2 ^ K := by
  have hk : k < K := by
    by_contra hge
    have hle : 2 ^ K ≤ 2 ^ k := Nat.pow_le_pow_right (by decide) (by omega)
    have := Nat.mul_le_mul_left c hle
    omega
  have hle : 2 ^ (k + 1) ≤ 2 ^ K := Nat.pow_le_pow_right (by decide) hk
  have := Nat.mul_le_mul_left c hle
  rw [pow_succ, ← Nat.mul_assoc] at this
  exact this

/-- A run of `add` calls on a well-formed list returns when some capacity
`c * 2^K` within the range of `int` has room for all items: the items are
appended in order, and the capacity stays `c` times the least power of two that
makes room. -/
theorem addAll_capacity [Inhabited T] (c K : Nat) (hmax : c * 2 ^ K ≤ 2147483647)
    (xs : List T) :
    ∀ l : ArrayList T, l.WF →
      (∃ k : Nat, l.capacity = ((c * 2 ^ k : Nat) : Int) ∧
        ∀ j : Nat, j < k → c * 2 ^ j < l.size) →
      l.size + xs.length ≤ c * 2 ^ K →
      ∃ l1, l.addAll xs = .ok l1 ∧ l1.WF ∧ l1.size = l.size + xs.length ∧
        l1.toList = l.toList ++ xs ∧
        ∃ k : Nat, l1.capacity = ((c * 2 ^ k : Nat) : Int) ∧
          ∀ j : Nat, j < k → c * 2 ^ j < l1.size := by
  induction xs with
  | nil => intro l hwf hk _; exact ⟨l, rfl, hwf, by simp, by simp, hk⟩
  | cons x xs ih =>
    intro l hwf hk hfit
    obtain ⟨k, hcap, hleast⟩ := hk
    have hlen : (x :: xs).length = xs.length + 1 := rfl
    have hroom : (l.size : Int) = l.capacity → l.capacity * 2 ≤ 2147483647 := by
      intro hfull
      have := double_le_of_lt c k K (by omega)
      omega
    obtain ⟨l1, h1, hwf1, hsz1, hl1, hcap1⟩ := add_spec l x hwf hroom
    have hk1 : ∃ k1 : Nat, l1.capacity = ((c * 2 ^ k1 : Nat) : Int) ∧
        ∀ j : Nat, j < k1 → c * 2 ^ j < l1.size := by
      by_cases hfull : (l.size : Int) = l.capacity
      · refine ⟨k + 1, ?_, fun j hj => ?_⟩
        · rw [hcap1, if_pos hfull, hcap, pow_succ, ← Nat.mul_assoc]
          push_cast
          rfl
        · rcases Nat.lt_succ_iff_lt_or_eq.1 hj with hlt | heq
          · have := hleast j hlt; omega
          · subst heq; omega
      · refine ⟨k, ?_, fun j hj => ?_⟩
        · rw [hcap1, if_neg hfull, hcap]
        · have := hleast j hj; omega
    obtain ⟨l2, h2, hwf2, hsz2, hl2, hk2⟩ := ih l1 hwf1 hk1 (by omega)
    refine ⟨l2, ?_, hwf2, by omega, ?_, hk2⟩
    · simp [addAll, h1, h2]
    · simp [hl2, hl1]

/-- A run of `add` calls with one more item at the end is the run followed by
the `add` of that item. -/
theorem addAll_append_singleton [Inhabited T] (x : T) (xs : List T) :
    ∀ l : ArrayList T, l.addAll (xs ++ [x]) =
      match l.addAll xs with
      | .error e => .error e
      | .ok l1 =>
        match l1.add x with
        | (.error e, _) => .error e
        | (.ok (), l2) => .ok l2 := by
  induction xs with
  | nil =>
    intro l
    simp only [List.nil_append, addAll]
  | cons y ys ih =>
    intro l
    simp only [List.cons_append, addAll]
    rcases hy : l.add y with ⟨_ | _, l1⟩
    · rfl
    · exact ih l1

/-- The constructor with a positive capacity gives a well-formed empty list. -/
theorem alloc_wf [Inhabited T] (cap : Nat) (h : 0 < cap) : (alloc cap : ArrayList T).WF :=
  ⟨by simp [alloc, newBlock], by simp [alloc], by simpa [alloc] using h⟩

theorem toList_alloc [Inhabited T] (cap : Nat) : (alloc cap : ArrayList T).toList = [] := by
  simp [alloc, toList]

theorem length_toList (l : ArrayList T) (hwf : l.WF) : l.toList.length = l.size := by
  have h1 := hwf.block
  have h2 := hwf.bound
  simp only [toList, List.length_take]
  omega

/-- Reading a slot in use of a well-formed list returns the item held there. -/
theorem get_of_lt (l : ArrayList T) (hwf : l.WF) (i : Nat) (hi : i < l.size) :
    ∃ x, l.get (i : Int) = .ok x ∧ l.toList[i]? = some x := by
  have h1 : i < l.data.length := by have := hwf.block; have := hwf.bound; omega
  refine ⟨l.data[i], ?_, ?_⟩
  · simp [get, List.getElem?_eq_getElem h1, hi]
  · simp [toList, List.getElem?_take, hi, List.getElem?_eq_getElem h1]

end ArrayList

end Library

namespace Library

/-! ## The ArrayList claims -/

/-- C6, amended: on a freshly constructed `ArrayList` of the default capacity 10,
a run of `add` calls with at most 1342177280 items `xs` returns, after it
`getSize()` is the number of items, and `operator[](i)` returns the `i`-th
item for every valid `i`. (1342177280 is `10 * 2^27`, the last capacity whose
double is not past the range of `int`.) -/
theorem C6_add_run_size_and_items {T : Type} [Inhabited T] (xs : List T)
    (hlen : xs.length ≤ 1342177280) :
    ∃ l : ArrayList T,
      (ArrayList.alloc ArrayList.defaultCapacity).addAll xs = .ok l ∧
      l.getSize = (xs.length : Int) ∧
      ∀ i : Fin xs.length, l.get ((i : Nat) : Int) = .ok (xs.get i) := by
  obtain ⟨l, h1, hwf, hsz, hl, _⟩ :=
    ArrayList.addAll_capacity 10 27 (by decide) xs (ArrayList.alloc ArrayList.defaultCapacity)
      (ArrayList.alloc_wf _ (by decide))
      ⟨0, by simp [ArrayList.alloc, ArrayList.defaultCapacity],
        fun j hj => absurd hj (Nat.not_lt_zero j)⟩
      (by
        have e : (10 : Nat) * 2 ^ 27 = 1342177280 := by decide
        have z : (ArrayList.alloc ArrayList.defaultCapacity : ArrayList T).size = 0 := rfl
        omega)
  have hsz1 : l.size = xs.length := by simpa [ArrayList.alloc] using hsz
  refine ⟨l, h1, by simp [ArrayList.getSize, hsz1], fun i => ?_⟩
  obtain ⟨x, hx, hx2⟩ := ArrayList.get_of_lt l hwf i (by omega)
  rw [hl, ArrayList.toList_alloc, List.nil_append] at hx2
  rw [hx]
  have : xs[(i : Nat)]? = some (xs.get i) := by simp
  rw [this] at hx2
  cases hx2
  rfl

/-- C6, amended, at a run of twelve items, which takes one `resize`. -/
theorem C6_add_run_size_and_items_witness :
    ([1, 2, 3, 4, 5, 6, 7, 8, 9, 10, 11, 12] : List Nat).length ≤ 1342177280 ∧
    ∃ l : ArrayList Nat,
      (ArrayList.alloc ArrayList.defaultCapacity).addAll
        [1, 2, 3, 4, 5, 6, 7, 8, 9, 10, 11, 12] = .ok l ∧
      l.getSize = 12 ∧
      ∀ i : Fin 12, l.get ((i : Nat) : Int) =
        .ok (([1, 2, 3, 4, 5, 6, 7, 8, 9, 10, 11, 12] : List Nat).get i) :=
  ⟨by decide, C6_add_run_size_and_items [1, 2, 3, 4, 5, 6, 7, 8, 9, 10, 11, 12] (by decide)⟩

/-- The `add` that follows a run of 1342177280 `add` calls on a fresh list of
the default capacity throws: the list is full at capacity `10 * 2^27`, and the
doubled capacity is past the range of `int`. -/
theorem ArrayList.add_after_full_run {T : Type} [Inhabited T] (xs : List T) (x : T)
    (hlen : xs.length = 1342177280) :
    (ArrayList.alloc ArrayList.defaultCapacity).addAll (xs ++ [x]) =
      .error .bad_array_new_length := by
  have e27 : (10 : Nat) * 2 ^ 27 = 1342177280 := by decide
  obtain ⟨l, h1, hwf, hsz, _, k, hcap, hleast⟩ :=
    ArrayList.addAll_capacity 10 27 (by decide) xs (ArrayList.alloc ArrayList.defaultCapacity)
      (ArrayList.alloc_wf _ (by decide))
      ⟨0, by simp [ArrayList.alloc, ArrayList.defaultCapacity],
        fun j hj => absurd hj (Nat.not_lt_zero j)⟩
      (by
        have z : (ArrayList.alloc ArrayList.defaultCapacity : ArrayList T).size = 0 := rfl
        omega)
  have hsz1 : l.size = 1342177280 := by
    have z : (ArrayList.alloc ArrayList.defaultCapacity : ArrayList T).size = 0 := rfl
    omega
  have hk : k ≤ 27 := by
    by_contra hgt
    have := hleast 27 (by omega)
    omega
  have hle : 2 ^ k ≤ 2 ^ 27 := Nat.pow_le_pow_right (by decide) hk
  have hle2 := Nat.mul_le_mul_left 10 hle
  have hb := hwf.bound
  have hfull : (l.size : Int) = l.capacity := by omega
  rw [ArrayList.addAll_append_singleton, h1]
  simp only [ArrayList.add_overflow l x hfull (by omega) (by omega)]

/-- C6 as stated fails at a run of 1342177281 items: the last `add` throws, so
the run does not return and no list of that size results. -/
theorem C6_add_run_overflow :
    (List.replicate 1342177280 (0 : Nat) ++ [0]).length = 1342177281 ∧
    (ArrayList.alloc ArrayList.defaultCapacity : ArrayList Nat).addAll
      (List.replicate 1342177280 (0 : Nat) ++ [0]) = .error .bad_array_new_length ∧
    ¬ ∃ l : ArrayList Nat,
      (ArrayList.alloc ArrayList.defaultCapacity : ArrayList Nat).addAll
        (List.replicate 1342177280 (0 : Nat) ++ [0]) = .ok l := by
  have hrun := ArrayList.add_after_full_run (List.replicate 1342177280 (0 : Nat)) 0
    (List.length_replicate _ _)
  refine ⟨?_, hrun, fun hex => ?_⟩
  · rw [List.length_append, List.length_replicate]
    rfl
  · obtain ⟨l, hl⟩ := hex
    rw [hrun] at hl
    cases hl

/-- C7: `operator[](index)` fails with the out-of-range error exactly when
`index < 0` or `index >= size`; so it fails for every index on an empty list,
and for an index below the capacity that is not below the size. -/
theorem C7_get_out_of_range_iff {T : Type} (l : ArrayList T) (index : Int) :
    (l.get index = .error (.out_of_range "Index out of bounds") ↔
      (index < 0 ∨ index ≥ l.getSize)) ∧
    (l.getSize = 0 → l.get index = .error (.out_of_range "Index out of bounds")) ∧
    (l.getSize ≤ index ∧ index < (l.capacity : Int) →
      l.get index = .error (.out_of_range "Index out of bounds")) := by
  have key : l.get index = .error (.out_of_range "Index out of bounds") ↔
      (index < 0 ∨ index ≥ l.getSize) := by
    unfold ArrayList.get ArrayList.getSize
    by_cases h : index < 0 ∨ index ≥ (l.size : Int)
    · simp [h]
    · simp only [h, if_false, iff_false]
      cases l.data[index.toNat]? <;> simp
  refine ⟨key, fun h0 => key.2 ?_, fun h1 => key.2 (Or.inr h1.1)⟩
  have : (0 : Int) ≤ l.getSize := by simp [ArrayList.getSize]
  omega

/-- C7 at a list of capacity 3 holding one item, read at index 2. -/
theorem C7_get_out_of_range_iff_witness :
    ((({ data := [7, 0, 0], size := 1, capacity := 3 } : ArrayList Nat).getSize ≤ 2 ∧
      (2 : Int) < ((3 : Nat) : Int)) ∧
    ({ data := [7, 0, 0], size := 1, capacity := 3 } : ArrayList Nat).get 2 =
      .error (.out_of_range "Index out of bounds")) :=
  ⟨by decide,
    (C7_get_out_of_range_iff ({ data := [7, 0, 0], size := 1, capacity := 3 } : ArrayList Nat)
      2).2.2 (by decide)⟩

end Library

namespace Library

/-! ## Borrowing and returning -/

/-- Writing to a slot the value it holds changes nothing. -/
theorem set_same {α : Type} (l : List α) (i : Nat) (x : α) (h : l[i]? = some x) :
    l.set i x = l := by
  apply List.ext_getElem?
  intro j
  by_cases hj : i = j
  · subst hj
    obtain ⟨hi, _⟩ := List.getElem?_eq_some.1 h
    rw [List.getElem?_set_self hi, h]
  · rw [List.getElem?_set_ne hj]

/-- A method call on the user at index `i` that leaves store and user as they
were leaves the whole state as it was. -/
theorem State.onUser_unchanged (s : State) (i : Nat) (u : User)
    (m : Heap → User → Except Fault Unit × Heap × User) (r : Except Fault Unit)
    (hu : s.users.data[i]? = some u) (hm : m s.heap u = (r, s.heap, u)) :
    s.onUser i m = (r, s) := by
  simp [State.onUser, hu, hm, set_same _ _ _ hu]

/-- A method call on the user at index `i` touches neither the catalog nor any
other user. -/
theorem State.onUser_frame (s : State) (i : Nat) (u : User)
    (m : Heap → User → Except Fault Unit × Heap × User)
    (hu : s.users.data[i]? = some u) :
    (s.onUser i m).1 = (m s.heap u).1 ∧
    (s.onUser i m).2.heap = (m s.heap u).2.1 ∧
    (s.onUser i m).2.library = s.library ∧
    (s.onUser i m).2.users.data[i]? = some (m s.heap u).2.2 ∧
    (s.onUser i m).2.users.size = s.users.size ∧
    (s.onUser i m).2.users.capacity = s.users.capacity ∧
    ∀ j, j ≠ i → (s.onUser i m).2.users.data[j]? = s.users.data[j]? := by
  obtain ⟨hi, _⟩ := List.getElem?_eq_some.1 hu
  have e : s.onUser i m = ((m s.heap u).1, { s with heap := (m s.heap u).2.1, users :=
      { s.users with data := s.users.data.set i (m s.heap u).2.2 } }) := by
    simp [State.onUser, hu]
  rw [e]
  refine ⟨rfl, rfl, rfl, by simp [hi], rfl, rfl, fun j hj => ?_⟩
  simp [List.getElem?_set_ne (Ne.symm hj)]

/-- C3: `borrowBook` on a book that is not available fails with
"Book not available." and changes nothing: the store (so every book) and the
patron are as before, and so is the whole program state when the patron is one
of `users`. -/
theorem C3_borrow_unavailable_fails (h : Heap) (u : User) (a : Nat) (bk : Book)
    (hb : h[a]? = some bk) (hu : bk.isAvailable = false) :
    u.borrowBook h (some a) = (.error (.runtime_error "Book not available."), h, u) ∧
    ∀ (s : State) (i : Nat), s.heap = h → s.users.data[i]? = some u →
      s.onUser i (fun h1 u1 => u1.borrowBook h1 (some a)) =
        (.error (.runtime_error "Book not available."), s) := by
  have h1 : u.borrowBook h (some a) =
      (.error (.runtime_error "Book not available."), h, u) := by
    simp [User.borrowBook, hb, hu]
  refine ⟨h1, fun s i hs hi => ?_⟩
  subst hs
  exact State.onUser_unchanged s i u _ _ hi h1

/-- C3 at a store with one borrowed book and a fresh patron. -/
theorem C3_borrow_unavailable_fails_witness :
    ([{ title := "Dune", author := "Herbert", isbn := "111", isAvailable := false }] : Heap)[0]? =
      some { title := "Dune", author := "Herbert", isbn := "111", isAvailable := false } ∧
    (User.new "Cameron" "1002").borrowBook
        [{ title := "Dune", author := "Herbert", isbn := "111", isAvailable := false }] (some 0) =
      (.error (.runtime_error "Book not available."),
        [{ title := "Dune", author := "Herbert", isbn := "111", isAvailable := false }],
        User.new "Cameron" "1002") :=
  ⟨rfl, (C3_borrow_unavailable_fails
    [{ title := "Dune", author := "Herbert", isbn := "111", isAvailable := false }]
    (User.new "Cameron" "1002") 0
    { title := "Dune", author := "Herbert", isbn := "111", isAvailable := false } rfl rfl).1⟩

/-- C5, amended: `borrowBook` on an available book, by a patron whose borrowed
list is a well-formed block of its own that has a free slot or a capacity whose
double is within the range of `int`, returns normally; the book becomes
unavailable and keeps title, author and isbn, every other book of the store is
as before; the borrowed list is the old one with the pointer appended (size plus
one, earlier entries at their indices); name and id of the patron are as before;
and when the patron is one of `users`, the catalog and every other user are as
before. -/
theorem C5_borrow_available_succeeds (h : Heap) (u : User) (a : Nat) (bk : Book)
    (hb : h[a]? = some bk) (hav : bk.isAvailable = true) (hwf : u.borrowedBooks.WF)
    (hroom : u.borrowedBooks.size = u.borrowedBooks.capacity →
      u.borrowedBooks.capacity * 2 ≤ 2147483647) :
    ∃ (h1 : Heap) (l : ArrayList BookPtr),
      u.borrowBook h (some a) = (.ok (), h1, { u with borrowedBooks := l }) ∧
      h1[a]? = some { title := bk.title, author := bk.author, isbn := bk.isbn,
                      isAvailable := false } ∧
      h1.length = h.length ∧
      (∀ a1, a1 ≠ a → h1[a1]? = h[a1]?) ∧
      l.getSize = u.borrowedBooks.getSize + 1 ∧
      l.toList = u.borrowedBooks.toList ++ [some a] ∧
      (∀ i : Nat, i < u.borrowedBooks.size → l.get (i : Int) = u.borrowedBooks.get (i : Int)) ∧
      l.get u.borrowedBooks.getSize = .ok (some a) ∧
      ∀ (s : State) (i : Nat), s.heap = h → s.users.data[i]? = some u →
        (s.onUser i (fun h2 u2 => u2.borrowBook h2 (some a))).1 = .ok () ∧
        (s.onUser i (fun h2 u2 => u2.borrowBook h2 (some a))).2.heap = h1 ∧
        (s.onUser i (fun h2 u2 => u2.borrowBook h2 (some a))).2.library = s.library ∧
        (s.onUser i (fun h2 u2 => u2.borrowBook h2 (some a))).2.users.data[i]? =
          some { u with borrowedBooks := l } ∧
        ∀ j, j ≠ i →
          (s.onUser i (fun h2 u2 => u2.borrowBook h2 (some a))).2.users.data[j]? =
            s.users.data[j]? := by
  obtain ⟨l, hadd, hwf1, hsz, hl, _⟩ := ArrayList.add_spec u.borrowedBooks (some a) hwf hroom
  obtain ⟨ha, _⟩ := List.getElem?_eq_some.1 hb
  have hrun : u.borrowBook h (some a) =
      (.ok (), h.set a { bk with isAvailable := false }, { u with borrowedBooks := l }) := by
    simp [User.borrowBook, hb, hav, hadd]
  refine ⟨h.set a { bk with isAvailable := false }, l, hrun, by simp [ha], by simp,
    fun a1 h1 => by simp [List.getElem?_set_ne (Ne.symm h1)],
    by simp [ArrayList.getSize, hsz], hl, fun i hi => ?_, ?_, fun s i hs hi => ?_⟩
  · obtain ⟨x, hx, hx2⟩ := ArrayList.get_of_lt u.borrowedBooks hwf i hi
    obtain ⟨y, hy, hy2⟩ := ArrayList.get_of_lt l hwf1 i (by omega)
    have hlen := ArrayList.length_toList u.borrowedBooks hwf
    rw [hl, List.getElem?_append_left (by omega), hx2] at hy2
    cases hy2
    rw [hx, hy]
  · obtain ⟨y, hy, hy2⟩ := ArrayList.get_of_lt l hwf1 u.borrowedBooks.size (by omega)
    have hlen := ArrayList.length_toList u.borrowedBooks hwf
    rw [hl, List.getElem?_append_right (by omega)] at hy2
    simp [hlen] at hy2
    subst hy2
    exact hy
  · subst hs
    obtain ⟨f1, f2, f3, f4, _, _, f7⟩ :=
      State.onUser_frame s i u (fun h2 u2 => u2.borrowBook h2 (some a)) hi
    simp only [hrun] at f1 f2 f4
    exact ⟨f1, f2, f3, f4, f7⟩

/-- C5, amended, at a store with one available book and a fresh patron. -/
theorem C5_borrow_available_succeeds_witness :
    ([Book.new "Dune" "Herbert" "111"] : Heap)[0]? = some (Book.new "Dune" "Herbert" "111") ∧
    (Book.new "Dune" "Herbert" "111").isAvailable = true ∧
    (User.new "Mandeep" "1001").borrowedBooks.WF ∧
    ((User.new "Mandeep" "1001").borrowedBooks.size =
        (User.new "Mandeep" "1001").borrowedBooks.capacity →
      (User.new "Mandeep" "1001").borrowedBooks.capacity * 2 ≤ 2147483647) ∧
    ∃ (h1 : Heap) (l : ArrayList BookPtr),
      (User.new "Mandeep" "1001").borrowBook [Book.new "Dune" "Herbert" "111"] (some 0) =
        (.ok (), h1, { User.new "Mandeep" "1001" with borrowedBooks := l }) ∧
      l.toList = (User.new "Mandeep" "1001").borrowedBooks.toList ++ [some 0] :=
  ⟨rfl, rfl, ArrayList.alloc_wf _ (by decide), by decide,
    (C5_borrow_available_succeeds [Book.new "Dune" "Herbert" "111"] (User.new "Mandeep" "1001") 0
      (Book.new "Dune" "Herbert" "111") rfl rfl (ArrayList.alloc_wf _ (by decide))
      (by decide)).imp
      fun _ hx => hx.imp fun _ hy => ⟨hy.1, hy.2.2.2.2.2.1⟩⟩

/-- On a patron whose borrowed list is full at a capacity whose double is past
the range of `int`, `borrowBook` on an available book makes the book
unavailable and then throws from `resize`. -/
theorem User.borrowBook_overflow (h : Heap) (u : User) (a : Nat) (bk : Book)
    (hb : h[a]? = some bk) (hav : bk.isAvailable = true)
    (hfull : (u.borrowedBooks.size : Int) = u.borrowedBooks.capacity)
    (h1 : 2147483647 < u.borrowedBooks.capacity * 2)
    (h2 : u.borrowedBooks.capacity * 2 < 4294967296) :
    u.borrowBook h (some a) =
      (.error .bad_array_new_length, h.set a { bk with isAvailable := false },
        { u with borrowedBooks :=
            { u.borrowedBooks with capacity := u.borrowedBooks.capacity * 2 - 4294967296 } }) := by
  simp [User.borrowBook, hb, hav, ArrayList.add_overflow u.borrowedBooks (some a) hfull h1 h2]

/-- C5 as stated fails at a patron who holds 1342177280 entries (each a pointer
to the one book of the store, borrowed and returned that often) in a full list
of capacity 1342177280: the list is well formed and the book is available, but
`borrowBook` does not succeed, it throws from `resize` after it has made the
book unavailable. -/
theorem C5_borrow_full_list_throws :
    ArrayList.WF
      ({ data := List.replicate 1342177280 (some 0), size := 1342177280,
         capacity := 1342177280 } : ArrayList BookPtr) ∧
    ([Book.new "Dune" "Herbert" "111"] : Heap)[0]? = some (Book.new "Dune" "Herbert" "111") ∧
    (Book.new "Dune" "Herbert" "111").isAvailable = true ∧
    (User.borrowBook [Book.new "Dune" "Herbert" "111"]
      { name := "Mandeep", userID := "1001",
        borrowedBooks := { data := List.replicate 1342177280 (some 0), size := 1342177280,
                           capacity := 1342177280 } } (some 0)).1 =
      .error .bad_array_new_length ∧
    (User.borrowBook [Book.new "Dune" "Herbert" "111"]
      { name := "Mandeep", userID := "1001",
        borrowedBooks := { data := List.replicate 1342177280 (some 0), size := 1342177280,
                           capacity := 1342177280 } } (some 0)).2.1 =
      [{ title := "Dune", author := "Herbert", isbn := "111", isAvailable := false }] := by
  have hrun := User.borrowBook_overflow [Book.new "Dune" "Herbert" "111"]
    { name := "Mandeep", userID := "1001",
      borrowedBooks := { data := List.replicate 1342177280 (some 0), size := 1342177280,
                         capacity := 1342177280 } } 0 (Book.new "Dune" "Herbert" "111")
    rfl rfl rfl (by decide) (by decide)
  refine ⟨⟨?_, by decide, by decide⟩, rfl, rfl, ?_, ?_⟩
  · show ((List.replicate 1342177280 (some 0 : BookPtr)).length : Int) = 1342177280
    rw [List.length_replicate]
    rfl
  · rw [hrun]
  · rw [hrun]
    rfl

/-- C1 at its failing input: a fresh patron borrows the available book "111" and
returns it. Both calls return normally and the book is available again, but the
borrowed list, empty before, now has one entry, the pointer to the book. -/
theorem C1_round_trip_leaves_entry :
    ((User.new "Mandeep" "1001").borrowBook [Book.new "Dune" "Herbert" "111"] (some 0)).1 = .ok () ∧
    (User.returnBook
      ((User.new "Mandeep" "1001").borrowBook [Book.new "Dune" "Herbert" "111"] (some 0)).2.1
      ((User.new "Mandeep" "1001").borrowBook [Book.new "Dune" "Herbert" "111"] (some 0)).2.2
      "111") =
      (.ok (), [Book.new "Dune" "Herbert" "111"],
        { User.new "Mandeep" "1001" with
          borrowedBooks :=
            { data := [some 0, none, none, none, none, none, none, none, none, none],
              size := 1, capacity := 10 } }) ∧
    (User.new "Mandeep" "1001").borrowedBooks.toList = [] ∧
    (User.new "Mandeep" "1001").borrowedBooks.getSize = 0 ∧
    (User.returnBook
      ((User.new "Mandeep" "1001").borrowBook [Book.new "Dune" "Herbert" "111"] (some 0)).2.1
      ((User.new "Mandeep" "1001").borrowBook [Book.new "Dune" "Herbert" "111"] (some 0)).2.2
      "111").2.2.borrowedBooks.toList = [some 0] ∧
    (User.returnBook
      ((User.new "Mandeep" "1001").borrowBook [Book.new "Dune" "Herbert" "111"] (some 0)).2.1
      ((User.new "Mandeep" "1001").borrowBook [Book.new "Dune" "Herbert" "111"] (some 0)).2.2
      "111").2.2.borrowedBooks.getSize = 1 := by
  decide

end Library

namespace Library

/-! ## The catalog -/

namespace BookList

/-- The ISBN scan returns `nullptr` when every node is a book with another
ISBN. -/
theorem findISBNFrom_none (h : Heap) (isbn : String) :
    ∀ ps : List BookPtr, (∀ p ∈ ps, (h.read p).isSome = true) →
      (∀ p ∈ ps, ∀ bk, h.read p = some bk → bk.isbn ≠ isbn) →
      findISBNFrom h isbn ps = .ok none := by
  intro ps
  induction ps with
  | nil => intro _ _; rfl
  | cons p ps ih =>
    intro hv hno
    obtain ⟨bk, hbk⟩ := Option.isSome_iff_exists.1 (hv p (List.mem_cons_self _ _))
    have hne := hno p (List.mem_cons_self _ _) bk hbk
    simp only [findISBNFrom, hbk, hne, if_false]
    exact ih (fun q hq => hv q (List.mem_cons_of_mem _ hq))
      (fun q hq => hno q (List.mem_cons_of_mem _ hq))

/-- The ISBN scan returns a node of the list whose book has the ISBN when there
is one. -/
theorem findISBNFrom_some (h : Heap) (isbn : String) :
    ∀ ps : List BookPtr, (∀ p ∈ ps, (h.read p).isSome = true) →
      (∃ p ∈ ps, (h.read p).map Book.isbn = some isbn) →
      ∃ a bk, findISBNFrom h isbn ps = .ok (some a) ∧ h[a]? = some bk ∧ bk.isbn = isbn ∧
        some a ∈ ps := by
  intro ps
  induction ps with
  | nil => intro _ hex; obtain ⟨p, hp, _⟩ := hex; cases hp
  | cons p ps ih =>
    intro hv hex
    obtain ⟨bk, hbk⟩ := Option.isSome_iff_exists.1 (hv p (List.mem_cons_self _ _))
    by_cases hi : bk.isbn = isbn
    · cases p with
      | none => simp [Heap.read] at hbk
      | some a =>
        refine ⟨a, bk, ?_, by simpa [Heap.read] using hbk, hi, List.mem_cons_self _ _⟩
        simp [findISBNFrom, hbk, hi]
    · have hex1 : ∃ q ∈ ps, (h.read q).map Book.isbn = some isbn := by
        obtain ⟨q, hq, hq1⟩ := hex
        rcases List.mem_cons.1 hq with rfl | hq3
        · rw [hbk] at hq1
          exact absurd (by simpa using hq1) hi
        · exact ⟨q, hq3, hq1⟩
      obtain ⟨a, bk1, h1, h2, h3, h4⟩ := ih (fun q hq => hv q (List.mem_cons_of_mem _ hq)) hex1
      refine ⟨a, bk1, ?_, h2, h3, List.mem_cons_of_mem _ h4⟩
      simp only [findISBNFrom, hbk, hi, if_false]
      exact h1

/-- The ISBN scan depends on the store only through the ISBN of each book. -/
theorem findISBNFrom_congr (h h1 : Heap) (isbn : String)
    (hsame : ∀ p, (h1.read p).map Book.isbn = (h.read p).map Book.isbn) :
    ∀ ps : List BookPtr, findISBNFrom h1 isbn ps = findISBNFrom h isbn ps := by
  intro ps
  induction ps with
  | nil => rfl
  | cons p ps ih =>
    have hp := hsame p
    cases e1 : h1.read p with
    | none =>
      cases e : h.read p with
      | none => simp [findISBNFrom, e1, e]
      | some bk => rw [e1, e] at hp; simp at hp
    | some bk1 =>
      cases e : h.read p with
      | none => rw [e1, e] at hp; simp at hp
      | some bk =>
        rw [e1, e] at hp
        have hp1 : bk1.isbn = bk.isbn := by simpa using hp
        simp only [findISBNFrom, e1, e, hp1, ih]

/-- Writing new title and author into a book leaves the ISBN of every book. -/
theorem read_isbn_set (h : Heap) (a : Nat) (bk : Book) (t au : String) (hb : h[a]? = some bk)
    (p : BookPtr) :
    (Heap.read (h.set a { bk with title := t, author := au }) p).map Book.isbn =
      (h.read p).map Book.isbn := by
  cases p with
  | none => rfl
  | some a1 =>
    simp only [Heap.read]
    by_cases ha : a = a1
    · subst ha
      obtain ⟨hlt, _⟩ := List.getElem?_eq_some.1 hb
      rw [List.getElem?_set_self hlt, hb]
      rfl
    · rw [List.getElem?_set_ne ha]

end BookList

/-- C8: after `addBook(b)` the call `findBookByISBN(b.isbn)` returns the pointer
`b` just added, whatever the catalog held before; and after the add branch of
the menu the lookup of the entered ISBN returns the new book, whose fields are
the entered ones. -/
theorem C8_find_after_add (h : Heap) (l : BookList) (a : Nat) (bk : Book)
    (hb : h[a]? = some bk) :
    (l.addBook (some a)).findBookByISBN h bk.isbn = .ok (some a) ∧
    ∀ (s : State) (t au i : String),
      (s.addBranch t au i).1 = .ok () ∧
      (s.addBranch t au i).2.library.findBookByISBN (s.addBranch t au i).2.heap i =
        .ok (some s.heap.length) ∧
      (s.addBranch t au i).2.heap[s.heap.length]? = some (Book.new t au i) := by
  refine ⟨?_, fun s t au i => ⟨rfl, ?_, ?_⟩⟩
  · simp [BookList.addBook, BookList.findBookByISBN, BookList.findISBNFrom, Heap.read, hb]
  · simp [State.addBranch, Heap.newBook, BookList.addBook, BookList.findBookByISBN,
      BookList.findISBNFrom, Heap.read, Book.new]
  · simp [State.addBranch, Heap.newBook]

/-- C8 at a catalog that already holds a book with the same ISBN. -/
theorem C8_find_after_add_witness :
    ([Book.new "Dune" "Herbert" "111", Book.new "Emma" "Austen" "111"] : Heap)[1]? =
      some (Book.new "Emma" "Austen" "111") ∧
    (BookList.addBook { head := [some 0] } (some 1)).findBookByISBN
      [Book.new "Dune" "Herbert" "111", Book.new "Emma" "Austen" "111"]
      (Book.new "Emma" "Austen" "111").isbn = .ok (some 1) :=
  ⟨rfl, (C8_find_after_add [Book.new "Dune" "Herbert" "111", Book.new "Emma" "Austen" "111"]
    { head := [some 0] } 1 (Book.new "Emma" "Austen" "111") rfl).1⟩

/-- C9: on a catalog that has a book with ISBN `i`, `updateBook(i, newTitle,
newAuthor)` returns normally, and afterwards `findBookByISBN(i)` returns the
same book as before, now with the new title and author, with ISBN `i`, and with
the availability flag it had before. -/
theorem C9_update_then_find (h : Heap) (l : BookList) (i nt na : String)
    (hv : l.Valid h) (hc : l.HasISBN h i) :
    ∃ (a : Nat) (bk : Book) (h1 : Heap),
      l.findBookByISBN h i = .ok (some a) ∧ h[a]? = some bk ∧
      l.updateBook h i nt na = (.ok (), h1) ∧
      l.findBookByISBN h1 i = .ok (some a) ∧
      h1[a]? = some { title := nt, author := na, isbn := i, isAvailable := bk.isAvailable } := by
  obtain ⟨a, bk, hf, hb, hi, _⟩ := BookList.findISBNFrom_some h i l.head hv hc
  obtain ⟨hlt, _⟩ := List.getElem?_eq_some.1 hb
  refine ⟨a, bk, h.set a { bk with title := nt, author := na }, hf, hb, ?_, ?_, ?_⟩
  · simp [BookList.updateBook, BookList.findBookByISBN, hf, hb]
  · unfold BookList.findBookByISBN
    rw [BookList.findISBNFrom_congr h _ i (BookList.read_isbn_set h a bk nt na hb)]
    exact hf
  · rw [List.getElem?_set_self hlt, ← hi]

/-- C9 at a catalog of two books, updating the one that is borrowed. -/
theorem C9_update_then_find_witness :
    BookList.Valid
      [{ title := "Dune", author := "Herbert", isbn := "111", isAvailable := false },
        Book.new "Emma" "Austen" "222"] { head := [some 1, some 0] } ∧
    BookList.HasISBN
      [{ title := "Dune", author := "Herbert", isbn := "111", isAvailable := false },
        Book.new "Emma" "Austen" "222"] { head := [some 1, some 0] } "111" ∧
    ∃ (a : Nat) (bk : Book) (h1 : Heap),
      BookList.findBookByISBN
        [{ title := "Dune", author := "Herbert", isbn := "111", isAvailable := false },
          Book.new "Emma" "Austen" "222"] { head := [some 1, some 0] } "111" = .ok (some a) ∧
      ([{ title := "Dune", author := "Herbert", isbn := "111", isAvailable := false },
          Book.new "Emma" "Austen" "222"] : Heap)[a]? = some bk ∧
      BookList.updateBook
        [{ title := "Dune", author := "Herbert", isbn := "111", isAvailable := false },
          Book.new "Emma" "Austen" "222"] { head := [some 1, some 0] } "111" "Dune II" "F. H." =
        (.ok (), h1) ∧
      BookList.findBookByISBN h1 { head := [some 1, some 0] } "111" = .ok (some a) ∧
      h1[a]? = some { title := "Dune II", author := "F. H.", isbn := "111",
                      isAvailable := bk.isAvailable } :=
  ⟨by decide, by decide,
    C9_update_then_find _ _ "111" "Dune II" "F. H." (by decide) (by decide)⟩

/-- C10: on a catalog that has no book with the ISBN, `updateBook` fails with
"Book not found." and leaves the store as it was; the update branch of the menu
leaves the whole state (catalog nodes and every book record) as it was. -/
theorem C10_update_missing_fails (h : Heap) (l : BookList) (i nt na : String)
    (hv : l.Valid h) (hno : ¬ l.HasISBN h i) :
    l.updateBook h i nt na = (.error (.runtime_error "Book not found."), h) ∧
    ∀ s : State, s.heap = h → s.library = l →
      s.updateBranch i nt na = (.error (.runtime_error "Book not found."), s) := by
  have hf : l.findBookByISBN h i = .ok none := by
    apply BookList.findISBNFrom_none h i l.head hv
    intro p hp bk hbk hi
    exact hno ⟨p, hp, by simp [hbk, hi]⟩
  have hu : l.updateBook h i nt na = (.error (.runtime_error "Book not found."), h) := by
    simp [BookList.updateBook, hf]
  refine ⟨hu, fun s hs hl => ?_⟩
  subst hs; subst hl
  simp [State.updateBranch, hu]

/-- C10 at a catalog of one book, updating an ISBN it does not have. -/
theorem C10_update_missing_fails_witness :
    BookList.Valid [Book.new "Dune" "Herbert" "111"] { head := [some 0] } ∧
    ¬ BookList.HasISBN [Book.new "Dune" "Herbert" "111"] { head := [some 0] } "999" ∧
    BookList.updateBook [Book.new "Dune" "Herbert" "111"] { head := [some 0] } "999" "X" "Y" =
      (.error (.runtime_error "Book not found."), [Book.new "Dune" "Herbert" "111"]) :=
  ⟨by decide, by decide,
    (C10_update_missing_fails [Book.new "Dune" "Herbert" "111"] { head := [some 0] } "999" "X" "Y"
      (by decide) (by decide)).1⟩

end Library

namespace Library

/-! ## Returned books stay in the borrowed list -/

/-- Start-up returns, with the state `start`. -/
theorem State.boot_eq_start : State.boot = .ok State.start := by decide

/-- C2 at its failing input, on two `User` objects that own their lists: the
first borrows the book "111" and returns it, the second borrows it. After the
return the book is in the borrowed list of the first user and is available;
after the second borrow, which returns normally, the book is in the borrowed
lists of both users. -/
theorem C2_return_breaks_consistency :
    ∃ (h1 h2 h3 : Heap) (p1 p2 q1 : User),
      (User.new "Mandeep" "1001").borrowBook [Book.new "Dune" "Herbert" "111"] (some 0) =
        (.ok (), h1, p1) ∧
      p1.returnBook h1 "111" = (.ok (), h2, p2) ∧
      some 0 ∈ p2.borrowedBooks.toList ∧
      h2[0]? = some { title := "Dune", author := "Herbert", isbn := "111",
                      isAvailable := true } ∧
      (User.new "Cameron" "1002").borrowBook h2 (some 0) = (.ok (), h3, q1) ∧
      some 0 ∈ p2.borrowedBooks.toList ∧
      some 0 ∈ q1.borrowedBooks.toList ∧
      h3[0]? = some { title := "Dune", author := "Herbert", isbn := "111",
                      isAvailable := false } := by
  refine ⟨_, _, _, _, _, _, rfl, rfl, ?_, ?_, rfl, ?_, ?_, ?_⟩ <;> decide

/-- C4 at its failing input, on two `User` objects that own their lists: the
first borrows the book "111", returns it, and returns it once more. The second
return, of a book the user no longer holds, returns normally as well; with a
borrow by the second user in between it still does, and it makes the book that
the second user holds available. -/
theorem C4_second_return_succeeds :
    ∃ (h1 h2 h3 h4 h5 : Heap) (p1 p2 p3 p4 q1 : User),
      (User.new "Mandeep" "1001").borrowBook [Book.new "Dune" "Herbert" "111"] (some 0) =
        (.ok (), h1, p1) ∧
      p1.returnBook h1 "111" = (.ok (), h2, p2) ∧
      p2.returnBook h2 "111" = (.ok (), h3, p3) ∧
      (User.new "Cameron" "1002").borrowBook h2 (some 0) = (.ok (), h4, q1) ∧
      h4[0]? = some { title := "Dune", author := "Herbert", isbn := "111",
                      isAvailable := false } ∧
      some 0 ∈ q1.borrowedBooks.toList ∧
      p2.returnBook h4 "111" = (.ok (), h5, p4) ∧
      h5[0]? = some { title := "Dune", author := "Herbert", isbn := "111",
                      isAvailable := true } := by
  refine ⟨_, _, _, _, _, _, _, _, _, _, rfl, rfl, rfl, rfl, ?_, ?_, rfl, ?_⟩ <;> decide

end Library

namespace Library

/-! ## Lookup order -/

namespace BookList

theorem findISBNFrom_eq_findFrom (h : Heap) (q : String) (ps : List BookPtr) :
    findISBNFrom h q ps = findFrom Book.isbn h q ps := by
  induction ps with
  | nil => rfl
  | cons p ps ih => simp only [findISBNFrom, findFrom, ih]

theorem findTitleFrom_eq_findFrom (h : Heap) (q : String) (ps : List BookPtr) :
    findTitleFrom h q ps = findFrom Book.title h q ps := by
  induction ps with
  | nil => rfl
  | cons p ps ih => simp only [findTitleFrom, findFrom, ih]

/-- The scan returns `nullptr` when no node has a book with the value. -/
theorem findFrom_none (key : Book → String) (h : Heap) (q : String) :
    ∀ ps : List BookPtr, (∀ p ∈ ps, (h.read p).isSome = true) →
      (∀ p ∈ ps, (h.read p).map key ≠ some q) → findFrom key h q ps = .ok none := by
  intro ps
  induction ps with
  | nil => intro _ _; rfl
  | cons p ps ih =>
    intro hv hno
    obtain ⟨bk, hbk⟩ := Option.isSome_iff_exists.1 (hv p (List.mem_cons_self _ _))
    have hne : key bk ≠ q := by
      have := hno p (List.mem_cons_self _ _)
      rw [hbk] at this
      simpa using this
    simp only [findFrom, hbk, hne, if_false]
    exact ih (fun r hr => hv r (List.mem_cons_of_mem _ hr))
      (fun r hr => hno r (List.mem_cons_of_mem _ hr))

/-- The scan returns the first book with the value. -/
theorem findFrom_first (key : Book → String) (h : Heap) (q : String) (a : Nat) :
    ∀ ps : List BookPtr, (∀ p ∈ ps, (h.read p).isSome = true) →
      IsFirstWith h key q ps a → findFrom key h q ps = .ok (some a) := by
  intro ps
  induction ps with
  | nil => intro _ hf; obtain ⟨k, hk, _⟩ := hf; simp at hk
  | cons p ps ih =>
    intro hv hf
    obtain ⟨k, hk, hq, hbefore⟩ := hf
    cases k with
    | zero =>
      have hp : p = some a := by simpa using hk
      subst hp
      cases e : h[a]? with
      | none => rw [e] at hq; simp at hq
      | some bk =>
        rw [e] at hq
        have hkey : key bk = q := by simpa using hq
        simp [findFrom, Heap.read, e, hkey]
    | succ k =>
      obtain ⟨bk, hbk⟩ := Option.isSome_iff_exists.1 (hv p (List.mem_cons_self _ _))
      have hne : key bk ≠ q := by
        have := hbefore 0 (Nat.succ_pos k) p (by simp)
        rw [hbk] at this
        simpa using this
      simp only [findFrom, hbk, hne, if_false]
      apply ih (fun r hr => hv r (List.mem_cons_of_mem _ hr))
      refine ⟨k, by simpa using hk, hq, fun j hj r hr => ?_⟩
      exact hbefore (j + 1) (Nat.succ_lt_succ hj) r (by simpa using hr)

/-- A list with a matching node has a first matching book. -/
theorem exists_isFirstWith (key : Book → String) (h : Heap) (q : String) :
    ∀ ps : List BookPtr, (∃ p ∈ ps, (h.read p).map key = some q) →
      ∃ a, IsFirstWith h key q ps a := by
  intro ps
  induction ps with
  | nil => intro hex; obtain ⟨p, hp, _⟩ := hex; cases hp
  | cons p ps ih =>
    intro hex
    by_cases hp : (h.read p).map key = some q
    · cases p with
      | none => simp [Heap.read] at hp
      | some a =>
        refine ⟨a, 0, by simp, by simpa [Heap.read] using hp, fun j hj => ?_⟩
        omega
    · have hex1 : ∃ r ∈ ps, (h.read r).map key = some q := by
        obtain ⟨r, hr, hr1⟩ := hex
        rcases List.mem_cons.1 hr with rfl | hr2
        · exact absurd hr1 hp
        · exact ⟨r, hr2, hr1⟩
      obtain ⟨a, k, hk, hq, hbefore⟩ := ih hex1
      refine ⟨a, k + 1, by simpa using hk, hq, fun j hj r hr => ?_⟩
      cases j with
      | zero =>
        have : r = p := by simpa using hr.symm
        rw [this]; exact hp
      | succ j => exact hbefore j (by omega) r (by simpa using hr)

/-- The scan over a list followed by another: the second is scanned when the
first has no match. -/
theorem findFrom_append (key : Book → String) (h : Heap) (q : String) (qs : List BookPtr) :
    ∀ ps : List BookPtr, findFrom key h q (ps ++ qs) =
      match findFrom key h q ps with
      | .ok none => findFrom key h q qs
      | r => r := by
  intro ps
  induction ps with
  | nil => rfl
  | cons p ps ih =>
    cases e : h.read p with
    | none => simp [findFrom, e]
    | some bk =>
      by_cases hk : key bk = q
      · cases p with
        | none => simp [Heap.read] at e
        | some a => simp [findFrom, e, hk]
      · simp only [List.cons_append, findFrom, e, hk, if_false]
        exact ih

/-- The nodes after a run of `addBook` calls: the added pointers, last one
first, in front of the old nodes. -/
theorem head_addBooks (bs : List BookPtr) :
    ∀ l : BookList, (l.addBooks bs).head = bs.reverse ++ l.head := by
  induction bs with
  | nil => intro l; rfl
  | cons b bs ih =>
    intro l
    simp [addBooks, ih, addBook]

end BookList

end Library

namespace Library

/-- C11: the search branch returns the first book in list order whose ISBN is
the query when a book has that ISBN (whatever the titles of the books before
it); otherwise it returns the first book in list order whose title is the
query; and it reports not-found exactly when no book has the query as ISBN and
none has it as title. A catalog with a matching book has a first one. -/
theorem C11_search_isbn_before_title (s : State) (q : String)
    (hv : s.library.Valid s.heap) :
    (∀ a, BookList.IsFirstWith s.heap Book.isbn q s.library.head a →
      s.searchBranch q = .ok (some a)) ∧
    (¬ s.library.HasISBN s.heap q →
      ∀ a, BookList.IsFirstWith s.heap Book.title q s.library.head a →
        s.searchBranch q = .ok (some a)) ∧
    (s.searchBranch q = .ok none ↔
      (¬ s.library.HasISBN s.heap q ∧ ¬ s.library.HasTitle s.heap q)) ∧
    (s.library.HasISBN s.heap q →
      ∃ a, BookList.IsFirstWith s.heap Book.isbn q s.library.head a) ∧
    (s.library.HasTitle s.heap q →
      ∃ a, BookList.IsFirstWith s.heap Book.title q s.library.head a) := by
  have p1 : ∀ a, BookList.IsFirstWith s.heap Book.isbn q s.library.head a →
      s.searchBranch q = .ok (some a) := by
    intro a hf
    have := BookList.findFrom_first Book.isbn s.heap q a s.library.head hv hf
    simp [State.searchBranch, BookList.findBookByISBN, BookList.findISBNFrom_eq_findFrom, this]
  have p2 : ¬ s.library.HasISBN s.heap q → s.searchBranch q =
      BookList.findFrom Book.title s.heap q s.library.head := by
    intro hno
    have := BookList.findFrom_none Book.isbn s.heap q s.library.head hv
      (fun p hp hq => hno ⟨p, hp, hq⟩)
    simp [State.searchBranch, BookList.findBookByISBN, BookList.findBookByTitle,
      BookList.findISBNFrom_eq_findFrom, BookList.findTitleFrom_eq_findFrom, this]
  have p4 := BookList.exists_isFirstWith Book.isbn s.heap q s.library.head
  have p5 := BookList.exists_isFirstWith Book.title s.heap q s.library.head
  refine ⟨p1, fun hno a hf => ?_, ⟨fun hs => ?_, fun hb => ?_⟩, p4, p5⟩
  · rw [p2 hno]
    exact BookList.findFrom_first Book.title s.heap q a s.library.head hv hf
  · by_cases hi : s.library.HasISBN s.heap q
    · obtain ⟨a, ha⟩ := p4 hi
      rw [p1 a ha] at hs
      cases hs
    · refine ⟨hi, fun ht => ?_⟩
      obtain ⟨a, ha⟩ := p5 ht
      rw [p2 hi, BookList.findFrom_first Book.title s.heap q a s.library.head hv ha] at hs
      cases hs
  · rw [p2 hb.1]
    exact BookList.findFrom_none Book.title s.heap q s.library.head hv
      (fun p hp hq => hb.2 ⟨p, hp, hq⟩)

/-- C11 at a catalog whose front book has the query as title and whose second
book has it as ISBN: the search returns the second book. -/
theorem C11_search_isbn_before_title_witness :
    BookList.Valid [Book.new "Dune" "Herbert" "111", Book.new "111" "Anon" "222"]
      { head := [some 1, some 0] } ∧
    BookList.IsFirstWith [Book.new "Dune" "Herbert" "111", Book.new "111" "Anon" "222"]
      Book.isbn "111" [some 1, some 0] 0 ∧
    State.searchBranch
      { heap := [Book.new "Dune" "Herbert" "111", Book.new "111" "Anon" "222"]
        library := { head := [some 1, some 0] }
        users := State.start.users } "111" = .ok (some 0) :=
  have hf : BookList.IsFirstWith [Book.new "Dune" "Herbert" "111", Book.new "111" "Anon" "222"]
      Book.isbn "111" [some 1, some 0] 0 :=
    ⟨1, rfl, rfl, fun j hj p hp => by
      have hj0 : j = 0 := by omega
      subst hj0
      have hp1 : p = some 1 := by simpa using hp.symm
      subst hp1
      decide⟩
  ⟨by decide, hf,
    (C11_search_isbn_before_title
      { heap := [Book.new "Dune" "Herbert" "111", Book.new "111" "Anon" "222"]
        library := { head := [some 1, some 0] }
        users := State.start.users } "111" (by decide)).1 0 hf⟩

/-- C12: after `addBook` calls with the pointers to the books `b_1 .. b_n`, in
that order, on an empty catalog, the nodes front to back are `b_n .. b_1`;
`findBookByTitle(t)` returns not-found when no `b_k` has title `t`, and returns
`b_k` for the largest `k` such that `b_k` has title `t`. -/
theorem C12_title_lookup_latest_first (h : Heap) (bs : List Nat) (t : String)
    (hv : ∀ a ∈ bs, (h[a]?).isSome = true) :
    (BookList.new.addBooks (bs.map some)).head = (bs.map some).reverse ∧
    ((∀ a ∈ bs, (h[a]?).map Book.title ≠ some t) →
      (BookList.new.addBooks (bs.map some)).findBookByTitle h t = .ok none) ∧
    (∀ (k a : Nat), bs[k]? = some a → (h[a]?).map Book.title = some t →
      (∀ (j a1 : Nat), k < j → bs[j]? = some a1 → (h[a1]?).map Book.title ≠ some t) →
      (BookList.new.addBooks (bs.map some)).findBookByTitle h t = .ok (some a)) := by
  have hhead : (BookList.new.addBooks (bs.map some)).head = (bs.map some).reverse := by
    simp [BookList.head_addBooks, BookList.new]
  have hnone : ∀ cs : List Nat, (∀ a ∈ cs, (h[a]?).isSome = true) →
      (∀ a ∈ cs, (h[a]?).map Book.title ≠ some t) →
      BookList.findFrom Book.title h t (cs.map some).reverse = .ok none := by
    intro cs hv1 hno
    apply BookList.findFrom_none
    · intro p hp
      obtain ⟨a, ha, rfl⟩ := List.mem_map.1 (List.mem_reverse.1 hp)
      exact hv1 a ha
    · intro p hp
      obtain ⟨a, ha, rfl⟩ := List.mem_map.1 (List.mem_reverse.1 hp)
      exact hno a ha
  have hlast : ∀ cs : List Nat, (∀ a ∈ cs, (h[a]?).isSome = true) →
      ∀ (k a : Nat), cs[k]? = some a → (h[a]?).map Book.title = some t →
      (∀ (j a1 : Nat), k < j → cs[j]? = some a1 → (h[a1]?).map Book.title ≠ some t) →
      BookList.findFrom Book.title h t (cs.map some).reverse = .ok (some a) := by
    intro cs
    induction cs with
    | nil => intro _ k a hk; simp at hk
    | cons c cs ih =>
      intro hv1 k a hk ht hlater
      have hvc : ∀ a ∈ cs, (h[a]?).isSome = true := fun a ha => hv1 a (List.mem_cons_of_mem _ ha)
      rw [List.map_cons, List.reverse_cons, BookList.findFrom_append]
      cases k with
      | zero =>
        have hc : c = a := by simpa using hk
        subst hc
        have hn := hnone cs hvc (fun a1 ha1 => by
          obtain ⟨j, hj⟩ := List.mem_iff_getElem?.1 ha1
          exact hlater (j + 1) a1 (Nat.succ_pos j) (by simpa using hj))
        rw [hn]
        cases e : h[c]? with
        | none => rw [e] at ht; simp at ht
        | some bk =>
          rw [e] at ht
          have hkey : bk.title = t := by simpa using ht
          simp [BookList.findFrom, Heap.read, e, hkey]
      | succ k =>
        have := ih hvc k a (by simpa using hk) ht
          (fun j a1 hj hj1 => hlater (j + 1) a1 (by omega) (by simpa using hj1))
        rw [this]
  refine ⟨hhead, fun hno => ?_, fun k a hk ht hlater => ?_⟩
  · unfold BookList.findBookByTitle
    rw [hhead, BookList.findTitleFrom_eq_findFrom]
    exact hnone bs hv hno
  · unfold BookList.findBookByTitle
    rw [hhead, BookList.findTitleFrom_eq_findFrom]
    exact hlast bs hv k a hk ht hlater

/-- C12 at three books of which the first and the second have the title "Dune":
the lookup returns the second. -/
theorem C12_title_lookup_latest_first_witness :
    (∀ a ∈ [0, 1, 2], (([Book.new "Dune" "Herbert" "111", Book.new "Dune" "Lynch" "222",
      Book.new "Emma" "Austen" "333"] : Heap)[a]?).isSome = true) ∧
    (BookList.new.addBooks ([0, 1, 2].map some)).head = [some 2, some 1, some 0] ∧
    (BookList.new.addBooks ([0, 1, 2].map some)).findBookByTitle
      [Book.new "Dune" "Herbert" "111", Book.new "Dune" "Lynch" "222",
        Book.new "Emma" "Austen" "333"] "Dune" = .ok (some 1) :=
  ⟨by decide,
    (C12_title_lookup_latest_first [Book.new "Dune" "Herbert" "111",
      Book.new "Dune" "Lynch" "222", Book.new "Emma" "Austen" "333"] [0, 1, 2] "Dune"
      (by decide)).1,
    (C12_title_lookup_latest_first [Book.new "Dune" "Herbert" "111",
      Book.new "Dune" "Lynch" "222", Book.new "Emma" "Austen" "333"] [0, 1, 2] "Dune"
      (by decide)).2.2 1 1 rfl rfl (fun j a1 hj hj1 => by
        have hj2 : j = 2 := by
          rcases Nat.lt_or_ge j 3 with h3 | h3
          · omega
          · have : ([0, 1, 2] : List Nat)[j]? = none := List.getElem?_eq_none (by simpa using h3)
            rw [this] at hj1; cases hj1
        subst hj2
        have ha : a1 = 2 := by simpa using hj1.symm
        subst ha
        decide)⟩

end Library

namespace Library

/-! ## Scenario and adding books -/

/-- C13 at its failing step. From the start state, after adding "Dune" by
"Herbert" with ISBN "111", the search for "111" and the search for "Dune" both
return the new book. For the borrow by "1001" the user is found, the book is
found and it is available; the borrowed list of the stored user has no block
left (it was deleted with the temporary `User` at start-up), so the borrow
makes the book unavailable and then writes outside an allocated block: the
borrow that the scenario expects to succeed is undefined behaviour. -/
theorem C13_borrow_writes_deleted_block :
    State.boot = .ok State.start ∧
    (State.start.run [.addBook "Dune" "Herbert" "111"]).searchBranch "111" = .ok (some 0) ∧
    (State.start.run [.addBook "Dune" "Herbert" "111"]).searchBranch "Dune" = .ok (some 0) ∧
    (State.start.run [.addBook "Dune" "Herbert" "111"]).heap[0]? =
      some { title := "Dune", author := "Herbert", isbn := "111", isAvailable := true } ∧
    State.findUser (State.start.run [.addBook "Dune" "Herbert" "111"]).users "1001" =
      .ok (some 0) ∧
    (State.start.run [.addBook "Dune" "Herbert" "111"]).users.data[0]? =
      some (User.new "Mandeep" "1001").storedFromTemporary ∧
    (User.new "Mandeep" "1001").storedFromTemporary.borrowedBooks =
      { data := [], size := 0, capacity := 10 } ∧
    State.start.outcomes [.addBook "Dune" "Herbert" "111", .borrowBook "1001" "111"] =
      [.ok (), .error .undefined] ∧
    (State.start.run [.addBook "Dune" "Herbert" "111", .borrowBook "1001" "111"]).heap[0]? =
      some { title := "Dune", author := "Herbert", isbn := "111", isAvailable := false } := by
  refine ⟨?_, ?_, ?_, ?_, ?_, ?_, ?_, ?_, ?_⟩ <;> decide

/-- The two books at the end of a store that grew by two. -/
theorem getElem?_append_two (h : Heap) (x y : Book) :
    (h ++ [x] ++ [y])[h.length]? = some x ∧ (h ++ [x] ++ [y])[h.length + 1]? = some y := by
  constructor
  · rw [List.append_assoc, List.getElem?_append_right (Nat.le_refl _)]
    simp
  · rw [List.append_assoc, List.getElem?_append_right (Nat.le_succ _)]
    simp

/-- C17: the add branch returns normally for every title, author and ISBN; the
catalog has one more node and the store one more book, the new book has the
entered fields and is available. After a second add with the same ISBN both
books are in the catalog, each with that ISBN, and `findBookByISBN` returns the
one added last. -/
theorem C17_add_always_succeeds (s : State) (t a i t2 a2 : String) :
    (s.addBranch t a i).1 = .ok () ∧
    (s.addBranch t a i).2.library.head.length = s.library.head.length + 1 ∧
    (s.addBranch t a i).2.library.head = some s.heap.length :: s.library.head ∧
    (s.addBranch t a i).2.heap =
      s.heap ++ [({ title := t, author := a, isbn := i, isAvailable := true } : Book)] ∧
    (s.addBranch t a i).2.users = s.users ∧
    ((s.addBranch t a i).2.addBranch t2 a2 i).1 = .ok () ∧
    ((s.addBranch t a i).2.addBranch t2 a2 i).2.library.head =
      some (s.heap.length + 1) :: some s.heap.length :: s.library.head ∧
    ((s.addBranch t a i).2.addBranch t2 a2 i).2.heap[s.heap.length]? =
      some { title := t, author := a, isbn := i, isAvailable := true } ∧
    ((s.addBranch t a i).2.addBranch t2 a2 i).2.heap[s.heap.length + 1]? =
      some { title := t2, author := a2, isbn := i, isAvailable := true } ∧
    ((s.addBranch t a i).2.addBranch t2 a2 i).2.library.findBookByISBN
      ((s.addBranch t a i).2.addBranch t2 a2 i).2.heap i = .ok (some (s.heap.length + 1)) := by
  have h2 := getElem?_append_two s.heap (Book.new t a i) (Book.new t2 a2 i)
  have e : ((s.addBranch t a i).2.addBranch t2 a2 i).2.heap =
      s.heap ++ [Book.new t a i] ++ [Book.new t2 a2 i] := rfl
  refine ⟨rfl, ?_, ?_, ?_, rfl, rfl, ?_, ?_, ?_, ?_⟩
  · simp [State.addBranch, BookList.addBook]
  · simp [State.addBranch, BookList.addBook, Heap.newBook]
  · simp [State.addBranch, Heap.newBook, Book.new]
  · simp [State.addBranch, BookList.addBook, Heap.newBook]
  · rw [e]; exact h2.1
  · rw [e]; exact h2.2
  · have e2 : ((s.addBranch t a i).2.addBranch t2 a2 i).2.library.head =
        some (s.heap.length + 1) :: some s.heap.length :: s.library.head := by
      simp [State.addBranch, BookList.addBook, Heap.newBook]
    unfold BookList.findBookByISBN
    rw [e, e2]
    simp only [BookList.findISBNFrom, Heap.read, h2.2]
    simp [Book.new]

end Library

namespace Library

/-! ## Returning -/

namespace User

/-- The store after the return loop is the store before, or the store before
with one book made available. -/
theorem returnLoop_heap (h : Heap) (l : ArrayList BookPtr) (q : String) :
    ∀ n i : Nat, (returnLoop h l q n i).2 = h ∨
      ∃ a bk, h[a]? = some bk ∧
        (returnLoop h l q n i) = (.ok (), h.set a { bk with isAvailable := true }) := by
  intro n
  induction n with
  | zero => intro i; exact Or.inl rfl
  | succ n ih =>
    intro i
    rw [returnLoop]
    split
    · exact Or.inl rfl
    · split
      · exact Or.inl rfl
      · split
        · exact Or.inl rfl
        · rename_i bk hbk
          split
          · exact Or.inr ⟨_, bk, hbk, rfl⟩
          · exact ih (i + 1)

/-- A return loop that does not return normally leaves the store as it was. -/
theorem returnLoop_error (h : Heap) (l : ArrayList BookPtr) (q : String) (n i : Nat)
    (e : Fault) (hfail : (returnLoop h l q n i).1 = .error e) :
    (returnLoop h l q n i).2 = h := by
  rcases returnLoop_heap h l q n i with h1 | ⟨a, bk, _, h2⟩
  · exact h1
  · rw [h2] at hfail
    cases hfail

/-- The return loop from index `i` makes the first book with the ISBN among
the entries from `i` on available. -/
theorem returnLoop_first (h : Heap) (l : ArrayList BookPtr) (q : String) (hwf : l.WF)
    (hv : ∀ p ∈ l.toList, (h.read p).isSome = true) (a : Nat) (bk : Book)
    (hb : h[a]? = some bk) :
    ∀ n i : Nat, i + n = l.size →
      BookList.IsFirstWith h Book.isbn q (l.toList.drop i) a →
      returnLoop h l q n i = (.ok (), h.set a { bk with isAvailable := true }) := by
  have hlen := ArrayList.length_toList l hwf
  intro n
  induction n with
  | zero =>
    intro i hi hf
    obtain ⟨k, hk, _⟩ := hf
    rw [List.drop_eq_nil_of_le (by omega)] at hk
    simp at hk
  | succ n ih =>
    intro i hi hf
    obtain ⟨x, hx, hx2⟩ := ArrayList.get_of_lt l hwf i (by omega)
    obtain ⟨hilt, hxi⟩ := List.getElem?_eq_some.1 hx2
    have hdrop : l.toList.drop i = x :: l.toList.drop (i + 1) := by
      rw [List.drop_eq_getElem_cons hilt, hxi]
    obtain ⟨k, hk, hq, hbefore⟩ := hf
    rw [hdrop] at hk hbefore
    unfold returnLoop
    rw [hx]
    cases k with
    | zero =>
      have hxa : x = some a := by simpa using hk
      subst hxa
      have hkey : bk.isbn = q := by rw [hb] at hq; simpa using hq
      simp [hb, hkey]
    | succ k =>
      have hxv := hv x (List.mem_iff_getElem?.2 ⟨i, hx2⟩)
      obtain ⟨bk0, hbk0⟩ := Option.isSome_iff_exists.1 hxv
      have hne : bk0.isbn ≠ q := by
        have := hbefore 0 (Nat.succ_pos k) x (by simp)
        rw [hbk0] at this
        simpa using this
      cases x with
      | none => simp [Heap.read] at hbk0
      | some a0 =>
        have hb0 : h[a0]? = some bk0 := by simpa [Heap.read] using hbk0
        simp only [hb0, hne, if_false]
        apply ih (i + 1) (by omega)
        refine ⟨k, by simpa using hk, hq, fun j hj r hr => ?_⟩
        exact hbefore (j + 1) (Nat.succ_lt_succ hj) r (by simpa using hr)

end User

/-- C15: when `returnBook` does not return normally, the store is as before
(so the availability flag of every book is unchanged) and the patron with the
borrowed list is as before; the whole program state is as before when the
patron is one of `users`. -/
theorem C15_failed_return_changes_nothing (h : Heap) (u : User) (isbn : String) (e : Fault)
    (hfail : (u.returnBook h isbn).1 = .error e) :
    (u.returnBook h isbn).2.1 = h ∧ (u.returnBook h isbn).2.2 = u ∧
    (u.returnBook h isbn).2.2.borrowedBooks.toList = u.borrowedBooks.toList ∧
    ∀ (s : State) (i : Nat), s.heap = h → s.users.data[i]? = some u →
      s.onUser i (fun h1 u1 => u1.returnBook h1 isbn) = (.error e, s) := by
  have h1 : (u.returnBook h isbn).2.1 = h :=
    User.returnLoop_error h u.borrowedBooks isbn u.borrowedBooks.size 0 e hfail
  refine ⟨h1, rfl, rfl, fun s i hs hi => ?_⟩
  subst hs
  exact State.onUser_unchanged s i u _ _ hi (Prod.ext hfail (Prod.ext h1 rfl))

/-- C15 at a fresh patron returning a book never borrowed. -/
theorem C15_failed_return_changes_nothing_witness :
    ((User.new "Mandeep" "1001").returnBook [Book.new "Dune" "Herbert" "111"] "111").1 =
      .error (.runtime_error "You did not borrow this book.") ∧
    ((User.new "Mandeep" "1001").returnBook [Book.new "Dune" "Herbert" "111"] "111").2.1 =
      [Book.new "Dune" "Herbert" "111"] :=
  ⟨by decide,
    (C15_failed_return_changes_nothing [Book.new "Dune" "Herbert" "111"]
      (User.new "Mandeep" "1001") "111" (.runtime_error "You did not borrow this book.")
      (by decide)).1⟩

/-- C16: when the borrowed list has an entry with the ISBN, `returnBook` returns
normally, makes the first such book in list order available, and changes
nothing else: every other book and the other fields of that book are as before,
and the patron, so the borrowed list with its size and entries, is as before;
the returned book is still in the list. -/
theorem C16_return_keeps_entry (h : Heap) (u : User) (isbn : String)
    (hwf : u.borrowedBooks.WF)
    (hv : ∀ p ∈ u.borrowedBooks.toList, (h.read p).isSome = true)
    (hhas : ∃ p ∈ u.borrowedBooks.toList, (h.read p).map Book.isbn = some isbn) :
    ∃ (a : Nat) (bk : Book),
      BookList.IsFirstWith h Book.isbn isbn u.borrowedBooks.toList a ∧
      h[a]? = some bk ∧
      u.returnBook h isbn = (.ok (), h.set a { bk with isAvailable := true }, u) ∧
      (h.set a { bk with isAvailable := true })[a]? =
        some { title := bk.title, author := bk.author, isbn := bk.isbn, isAvailable := true } ∧
      (∀ a1, a1 ≠ a → (h.set a { bk with isAvailable := true })[a1]? = h[a1]?) ∧
      (u.returnBook h isbn).2.2.borrowedBooks.getSize = u.borrowedBooks.getSize ∧
      (u.returnBook h isbn).2.2.borrowedBooks.toList = u.borrowedBooks.toList ∧
      some a ∈ (u.returnBook h isbn).2.2.borrowedBooks.toList := by
  obtain ⟨a, hf⟩ := BookList.exists_isFirstWith Book.isbn h isbn u.borrowedBooks.toList hhas
  have hf0 := hf
  obtain ⟨k, hk, hq, _⟩ := hf
  cases hb : h[a]? with
  | none => rw [hb] at hq; simp at hq
  | some bk =>
    obtain ⟨halt, _⟩ := List.getElem?_eq_some.1 hb
    have hloop := User.returnLoop_first h u.borrowedBooks isbn hwf hv a bk hb
      u.borrowedBooks.size 0 (by omega) (by simpa using hf0)
    refine ⟨a, bk, hf0, hb, ?_, by simp [halt], fun a1 h1 => ?_, rfl, rfl, ?_⟩
    · simp [User.returnBook, hloop]
    · simp [List.getElem?_set_ne (Ne.symm h1)]
    · exact List.mem_iff_getElem?.2 ⟨k, hk⟩

/-- C16 at a patron who has borrowed one book. -/
theorem C16_return_keeps_entry_witness :
    ((User.new "Mandeep" "1001").borrowBook [Book.new "Dune" "Herbert" "111"]
      (some 0)).2.2.borrowedBooks.WF ∧
    ∃ (a : Nat) (bk : Book),
      User.returnBook [{ title := "Dune", author := "Herbert", isbn := "111", isAvailable := false }]
        ((User.new "Mandeep" "1001").borrowBook [Book.new "Dune" "Herbert" "111"] (some 0)).2.2
        "111" =
        (.ok (),
          List.set [{ title := "Dune", author := "Herbert", isbn := "111", isAvailable := false }]
            a { bk with isAvailable := true },
          ((User.new "Mandeep" "1001").borrowBook [Book.new "Dune" "Herbert" "111"]
            (some 0)).2.2) :=
  have hwf : ((User.new "Mandeep" "1001").borrowBook [Book.new "Dune" "Herbert" "111"]
      (some 0)).2.2.borrowedBooks.WF := ⟨by decide, by decide, by decide⟩
  ⟨hwf,
    (C16_return_keeps_entry
      [{ title := "Dune", author := "Herbert", isbn := "111", isAvailable := false }]
      ((User.new "Mandeep" "1001").borrowBook [Book.new "Dune" "Herbert" "111"] (some 0)).2.2
      "111" hwf (by decide) (by decide)).imp
      fun _ hx => hx.imp fun _ hy => hy.2.2.1⟩

end Library

namespace Library

/-! ## Capacity of an `ArrayList` -/

/-- C18: on an `ArrayList` constructed with capacity `c >= 1`, with integer
overflow of the capacity aside (some capacity `c * 2^K` within the range of
`int` has room for the items of the run), a run of `n` calls of `add` returns;
after it the size is `n`, the size is at most the capacity, the block has
`capacity` slots, and the capacity is `c * 2^k` for the least `k` with
`c * 2^k >= n`. The next `add`, overflow aside again (the list has a free slot
or the doubled capacity is within the range of `int`), returns too: it changes
the capacity (by doubling it in `resize`) exactly when the size equals the
capacity, and the slot it writes, `data[size]`, is below the capacity at the
time of the write. -/
theorem C18_capacity_invariant {T : Type} [Inhabited T] (c : Nat) (hc : 1 ≤ c) (xs : List T)
    (K : Nat) (hK : xs.length ≤ c * 2 ^ K) (hmax : c * 2 ^ K ≤ 2147483647) :
    ∃ l : ArrayList T,
      (ArrayList.alloc c).addAll xs = .ok l ∧
      l.size = xs.length ∧ l.size ≤ l.capacity ∧ l.data.length = l.capacity ∧
      (∃ k : Nat, l.capacity = c * 2 ^ k ∧ xs.length ≤ c * 2 ^ k ∧
        ∀ j : Nat, j < k → c * 2 ^ j < xs.length) ∧
      ∀ x : T, (l.size = l.capacity → l.capacity * 2 ≤ 2147483647) →
        ∃ l1 : ArrayList T,
        l.add x = (.ok (), l1) ∧
        (l1.capacity ≠ l.capacity ↔ l.size = l.capacity) ∧
        (l.size = l.capacity → l1.capacity = l.capacity * 2) ∧
        l.size < l1.capacity ∧ l1.data.length = l1.capacity := by
  have z : (ArrayList.alloc c : ArrayList T).size = 0 := rfl
  obtain ⟨l, h1, hwf, hsz, _, k, hcap, hleast⟩ :=
    ArrayList.addAll_capacity c K hmax xs (ArrayList.alloc c) (ArrayList.alloc_wf c hc)
      ⟨0, by simp [ArrayList.alloc], fun j hj => absurd hj (Nat.not_lt_zero j)⟩ (by omega)
  have hsz1 : l.size = xs.length := by omega
  have hfit : xs.length ≤ c * 2 ^ k := by
    have hb := hwf.bound
    omega
  refine ⟨l, h1, hsz1, hwf.bound, hwf.block, ⟨k, ?_, hfit, ?_⟩, fun x hroom => ?_⟩
  · rw [hcap]; push_cast; rfl
  · rw [← hsz1]; exact hleast
  · obtain ⟨l1, ha, hwf1, hs1, _, hc1⟩ := ArrayList.add_spec l x hwf hroom
    have hpos := hwf.pos
    have hb1 := hwf1.bound
    refine ⟨l1, ha, ?_, ?_, by omega, hwf1.block⟩
    · by_cases hfull : (l.size : Int) = l.capacity
      · rw [if_pos hfull] at hc1
        exact ⟨fun _ => hfull, fun _ => by omega⟩
      · rw [if_neg hfull] at hc1
        exact ⟨fun hne => absurd hc1 hne, fun hf => absurd hf hfull⟩
    · intro hfull
      rw [if_pos hfull] at hc1
      exact hc1

/-- C18 at a list of capacity 2 that takes five items: the capacity is 8. -/
theorem C18_capacity_invariant_witness :
    1 ≤ 2 ∧ ([1, 2, 3, 4, 5] : List Nat).length ≤ 2 * 2 ^ 2 ∧ 2 * 2 ^ 2 ≤ 2147483647 ∧
    ∃ l : ArrayList Nat,
      (ArrayList.alloc 2).addAll [1, 2, 3, 4, 5] = .ok l ∧
      l.size = 5 ∧ l.size ≤ l.capacity ∧
      ∃ k : Nat, l.capacity = 2 * 2 ^ k ∧ 5 ≤ 2 * 2 ^ k ∧ ∀ j : Nat, j < k → 2 * 2 ^ j < 5 :=
  ⟨by decide, by decide, by decide,
    (C18_capacity_invariant 2 (by decide) [1, 2, 3, 4, 5] 2 (by decide) (by decide)).imp
      fun _ hx => ⟨hx.1, hx.2.1, hx.2.2.1, hx.2.2.2.2.1⟩⟩

/-! ## Frame of an update -/

/-- C19: on a catalog that has a book with ISBN `i`, the update branch returns
normally and writes the new title and author into the first book in list order
whose ISBN is `i`, and changes nothing else: that book keeps its ISBN and its
availability flag, every other book of the store is as before (books with the
same ISBN further down the list included), the store has as many books as
before, the catalog nodes are as before, and `users`, so the borrowed list of
every patron, is as before. -/
theorem C19_update_frame (s : State) (i nt na : String)
    (hv : s.library.Valid s.heap) (hc : s.library.HasISBN s.heap i) :
    ∃ (a : Nat) (bk : Book),
      BookList.IsFirstWith s.heap Book.isbn i s.library.head a ∧
      s.heap[a]? = some bk ∧
      s.updateBranch i nt na =
        (.ok (), { s with heap := s.heap.set a { bk with title := nt, author := na } }) ∧
      (s.updateBranch i nt na).2.heap[a]? =
        some { title := nt, author := na, isbn := bk.isbn, isAvailable := bk.isAvailable } ∧
      (∀ a1, a1 ≠ a → (s.updateBranch i nt na).2.heap[a1]? = s.heap[a1]?) ∧
      (s.updateBranch i nt na).2.heap.length = s.heap.length ∧
      (s.updateBranch i nt na).2.library = s.library ∧
      (s.updateBranch i nt na).2.users = s.users := by
  obtain ⟨a, hf⟩ := BookList.exists_isFirstWith Book.isbn s.heap i s.library.head hc
  have hfind : s.library.findBookByISBN s.heap i = .ok (some a) := by
    unfold BookList.findBookByISBN
    rw [BookList.findISBNFrom_eq_findFrom]
    exact BookList.findFrom_first Book.isbn s.heap i a s.library.head hv hf
  have hf0 := hf
  obtain ⟨k, hk, hq, _⟩ := hf
  cases hb : s.heap[a]? with
  | none => rw [hb] at hq; simp at hq
  | some bk =>
    obtain ⟨halt, _⟩ := List.getElem?_eq_some.1 hb
    have hrun : s.updateBranch i nt na =
        (.ok (), { s with heap := s.heap.set a { bk with title := nt, author := na } }) := by
      simp [State.updateBranch, BookList.updateBook, hfind, hb]
    refine ⟨a, bk, hf0, hb, hrun, ?_, fun a1 h1 => ?_, ?_, ?_, ?_⟩
    · rw [hrun]; simp [halt]
    · rw [hrun]; simp [List.getElem?_set_ne (Ne.symm h1)]
    · rw [hrun]; simp
    · rw [hrun]
    · rw [hrun]

/-- C19 at a catalog with two books of ISBN "111": the front one is updated,
the other one is untouched. -/
theorem C19_update_frame_witness :
    BookList.Valid [Book.new "Dune" "Herbert" "111", Book.new "Emma" "Austen" "111"]
      { head := [some 1, some 0] } ∧
    BookList.HasISBN [Book.new "Dune" "Herbert" "111", Book.new "Emma" "Austen" "111"]
      { head := [some 1, some 0] } "111" ∧
    ∃ (a : Nat) (bk : Book),
      ([Book.new "Dune" "Herbert" "111", Book.new "Emma" "Austen" "111"] : Heap)[a]? = some bk ∧
      State.updateBranch
        { heap := [Book.new "Dune" "Herbert" "111", Book.new "Emma" "Austen" "111"]
          library := { head := [some 1, some 0] }
          users := State.start.users } "111" "Emma II" "J. A." =
        (.ok (),
          { heap := List.set [Book.new "Dune" "Herbert" "111", Book.new "Emma" "Austen" "111"] a
              { bk with title := "Emma II", author := "J. A." }
            library := { head := [some 1, some 0] }
            users := State.start.users }) :=
  ⟨by decide, by decide,
    (C19_update_frame
      { heap := [Book.new "Dune" "Herbert" "111", Book.new "Emma" "Austen" "111"]
        library := { head := [some 1, some 0] }
        users := State.start.users } "111" "Emma II" "J. A." (by decide) (by decide)).imp
      fun _ hx => hx.imp fun _ hy => ⟨hy.2.1, hy.2.2.1⟩⟩

end Library

namespace Library

/-! ## The borrow branch -/

/-- An item is at index `k` of the items held exactly when `k` is below the
size and the item is in slot `k`. -/
theorem ArrayList.toList_getElem? {T : Type} (l : ArrayList T) (k : Nat) (x : T) :
    l.toList[k]? = some x ↔ k < l.size ∧ l.data[k]? = some x := by
  unfold ArrayList.toList
  rw [List.getElem?_take]
  by_cases hk : k < l.size
  · simp [hk]
  · simp [hk]

/-- The user lookup loop from index `i`: it returns `nullptr` when no user from
`i` on has the id, and otherwise the index of a user with the id. -/
theorem State.findUserLoop_spec (users : ArrayList User) (hwf : users.WF) (uid : String) :
    ∀ n i : Nat, i + n = users.size →
      (State.findUserLoop users uid n i = .ok none ∧
        ∀ (j : Nat) (u : User), i ≤ j → users.toList[j]? = some u → u.userID ≠ uid) ∨
      (∃ (j : Nat) (u : User), State.findUserLoop users uid n i = .ok (some j) ∧
        j < users.size ∧ users.data[j]? = some u ∧ u.userID = uid) := by
  intro n
  induction n with
  | zero =>
    intro i hi
    refine Or.inl ⟨rfl, fun j u hj hu => ?_⟩
    have := ((ArrayList.toList_getElem? users j u).1 hu).1
    omega
  | succ n ih =>
    intro i hi
    obtain ⟨x, hx, hx2⟩ := ArrayList.get_of_lt users hwf i (by omega)
    have hxd := (ArrayList.toList_getElem? users i x).1 hx2
    by_cases hid : x.userID = uid
    · refine Or.inr ⟨i, x, ?_, hxd.1, hxd.2, hid⟩
      simp [State.findUserLoop, hx, User.getUserID, hid]
    · have hstep : State.findUserLoop users uid (n + 1) i =
          State.findUserLoop users uid n (i + 1) := by
        simp [State.findUserLoop, hx, User.getUserID, hid]
      rw [hstep]
      rcases ih (i + 1) (by omega) with ⟨h1, h2⟩ | h3
      · refine Or.inl ⟨h1, fun j u hj hu => ?_⟩
        by_cases hji : j = i
        · subst hji
          rw [hx2] at hu
          cases hu
          exact hid
        · exact h2 j u (by omega) hu
      · exact Or.inr h3

/-- The user lookup, on a well-formed `users`. -/
theorem State.findUser_spec (users : ArrayList User) (hwf : users.WF) (uid : String) :
    (State.findUser users uid = .ok none ∧ ∀ u ∈ users.toList, u.userID ≠ uid) ∨
    (∃ (j : Nat) (u : User), State.findUser users uid = .ok (some j) ∧
      j < users.size ∧ users.data[j]? = some u ∧ u.userID = uid) := by
  rcases State.findUserLoop_spec users hwf uid users.size 0 (by omega) with ⟨h1, h2⟩ | h3
  · refine Or.inl ⟨h1, fun u hu => ?_⟩
    obtain ⟨j, hj⟩ := List.mem_iff_getElem?.1 hu
    exact h2 j u (Nat.zero_le j) hj
  · exact Or.inr h3

/-- A method call on the user in slot `i`, spelled out. -/
theorem State.onUser_eq (s : State) (i : Nat) (u : User)
    (m : Heap → User → Except Fault Unit × Heap × User) (hu : s.users.data[i]? = some u) :
    s.onUser i m = ((m s.heap u).1, { s with heap := (m s.heap u).2.1, users :=
      { s.users with data := s.users.data.set i (m s.heap u).2.2 } }) := by
  simp [State.onUser, hu]

/-- The three failure cases of the borrow branch, on a state whose `users` list
is well formed and whose catalog nodes point to books. When no patron has the
user id it fails with "User not found.", whatever the ISBN; when a patron has
the id and no catalog book has the ISBN it fails with "Book not found."; when a
patron has the id and the first catalog book with the ISBN is not available it
fails with "Book not available."; in each case the state is as before. -/
theorem State.borrowBranch_failures (s : State) (uid isbn : String)
    (hu : s.users.WF) (hv : s.library.Valid s.heap) :
    ((∀ u ∈ s.users.toList, u.userID ≠ uid) →
      s.borrowBranch uid isbn = (.error (.runtime_error "User not found."), s)) ∧
    ((∃ u ∈ s.users.toList, u.userID = uid) → ¬ s.library.HasISBN s.heap isbn →
      s.borrowBranch uid isbn = (.error (.runtime_error "Book not found."), s)) ∧
    ((∃ u ∈ s.users.toList, u.userID = uid) →
      ∀ (a : Nat) (bk : Book),
        BookList.IsFirstWith s.heap Book.isbn isbn s.library.head a → s.heap[a]? = some bk →
        bk.isAvailable = false →
        s.borrowBranch uid isbn = (.error (.runtime_error "Book not available."), s)) := by
  have hsome : (∃ u ∈ s.users.toList, u.userID = uid) →
      ∃ (j : Nat) (u : User), State.findUser s.users uid = .ok (some j) ∧
        j < s.users.size ∧ s.users.data[j]? = some u ∧ u.userID = uid := by
    intro hex
    rcases State.findUser_spec s.users hu uid with ⟨_, h2⟩ | h3
    · obtain ⟨u, hu1, hu2⟩ := hex
      exact absurd hu2 (h2 u hu1)
    · exact h3
  refine ⟨fun hno => ?_, fun hex hnb => ?_, fun hex a bk hf hb hun => ?_⟩
  · rcases State.findUser_spec s.users hu uid with ⟨h1, _⟩ | ⟨j, u, _, hj, hd, hid⟩
    · simp [State.borrowBranch, h1]
    · have hmem : u ∈ s.users.toList :=
        List.mem_iff_getElem?.2 ⟨j, (ArrayList.toList_getElem? s.users j u).2 ⟨hj, hd⟩⟩
      exact absurd hid (hno u hmem)
  · obtain ⟨j, u, hfu, _, _, _⟩ := hsome hex
    have hfind : s.library.findBookByISBN s.heap isbn = .ok none := by
      unfold BookList.findBookByISBN
      rw [BookList.findISBNFrom_eq_findFrom]
      exact BookList.findFrom_none Book.isbn s.heap isbn s.library.head hv
        (fun p hp hq => hnb ⟨p, hp, hq⟩)
    simp [State.borrowBranch, hfu, hfind]
  · obtain ⟨j, u, hfu, hj, hd, _⟩ := hsome hex
    have hfind : s.library.findBookByISBN s.heap isbn = .ok (some a) := by
      unfold BookList.findBookByISBN
      rw [BookList.findISBNFrom_eq_findFrom]
      exact BookList.findFrom_first Book.isbn s.heap isbn a s.library.head hv hf
    have hbranch : s.borrowBranch uid isbn =
        s.onUser j (fun h1 u1 => u1.borrowBook h1 (some a)) := by
      simp [State.borrowBranch, hfu, hfind]
    rw [hbranch]
    apply State.onUser_unchanged s j u _ _ hd
    simp [User.borrowBook, hb, hun]

/-- C14 at its failing input. From the start state with the book "Emma" of ISBN
"222" added, the borrow branch for user "1002" and ISBN "222": a patron has the
id, a catalog book has the ISBN, and the first such book is available, so none
of the three failure cases applies. The branch does not succeed: `borrowBook`
makes the book unavailable and then writes the pointer through the borrowed
list of the stored user, whose block was deleted with the temporary `User` at
start-up, which is undefined behaviour. -/
theorem C14_available_borrow_is_undefined :
    State.boot = .ok State.start ∧
    (∃ u ∈ (State.start.run [.addBook "Emma" "Austen" "222"]).users.toList,
      u.userID = "1002") ∧
    (State.start.run [.addBook "Emma" "Austen" "222"]).library.findBookByISBN
      (State.start.run [.addBook "Emma" "Austen" "222"]).heap "222" = .ok (some 0) ∧
    (State.start.run [.addBook "Emma" "Austen" "222"]).heap[0]? =
      some { title := "Emma", author := "Austen", isbn := "222", isAvailable := true } ∧
    (State.start.run [.addBook "Emma" "Austen" "222"]).borrowBranch "1002" "222" =
      (.error .undefined,
        { State.start.run [.addBook "Emma" "Austen" "222"] with
          heap := [{ title := "Emma", author := "Austen", isbn := "222",
                     isAvailable := false }] }) := by
  refine ⟨?_, ?_, ?_, ?_, ?_⟩ <;> decide

end Library

namespace Library

/-! ## Unavailable books and borrowed lists -/

/-- C20 at its failing input. From the start state: add "Dune" with ISBN "111"
and "Emma" with ISBN "222", borrow "111" as user "1001" and "222" as user
"1002". `borrowBook` makes the book unavailable before it adds the pointer to
the borrowed list, and the add writes through a list whose block was deleted
with the temporary `User` at start-up: each borrow ends in undefined
behaviour, in a reachable state in which the catalog book "Dune" is unavailable
and in the borrowed list of no patron. -/
theorem C20_unavailable_book_not_listed :
    State.boot = .ok State.start ∧
    (State.start.run [.addBook "Dune" "Herbert" "111", .addBook "Emma" "Austen" "222",
      .borrowBook "1001" "111", .borrowBook "1002" "222"]).Reachable ∧
    State.start.outcomes [.addBook "Dune" "Herbert" "111", .addBook "Emma" "Austen" "222",
        .borrowBook "1001" "111", .borrowBook "1002" "222"] =
      [.ok (), .ok (), .error .undefined, .error .undefined] ∧
    some 0 ∈ (State.start.run [.addBook "Dune" "Herbert" "111", .addBook "Emma" "Austen" "222",
      .borrowBook "1001" "111", .borrowBook "1002" "222"]).library.head ∧
    (State.start.run [.addBook "Dune" "Herbert" "111", .addBook "Emma" "Austen" "222",
        .borrowBook "1001" "111", .borrowBook "1002" "222"]).heap[0]? =
      some { title := "Dune", author := "Herbert", isbn := "111", isAvailable := false } ∧
    ¬ ∃ i, (State.start.run [.addBook "Dune" "Herbert" "111", .addBook "Emma" "Austen" "222",
      .borrowBook "1001" "111", .borrowBook "1002" "222"]).Lists i 0 := by
  refine ⟨by decide, ?_, by decide, by decide, by decide, ?_⟩
  · exact State.Reachable.borrowBook _ "1002" "222"
      (State.Reachable.borrowBook _ "1001" "111"
        (State.Reachable.addBook _ "Emma" "Austen" "222"
          (State.Reachable.addBook _ "Dune" "Herbert" "111"
            (State.Reachable.boot _ (by decide)))))
  · rintro ⟨i, u, hu, hm⟩
    have hmem : u ∈ (State.start.run [.addBook "Dune" "Herbert" "111",
        .addBook "Emma" "Austen" "222", .borrowBook "1001" "111",
        .borrowBook "1002" "222"]).users.toList := List.mem_iff_getElem?.2 ⟨i, hu⟩
    have hall : ∀ v ∈ (State.start.run [.addBook "Dune" "Herbert" "111",
        .addBook "Emma" "Austen" "222", .borrowBook "1001" "111",
        .borrowBook "1002" "222"]).users.toList, some 0 ∉ v.borrowedBooks.toList := by
      decide
    exact hall u hmem hm

end Library
